import Mathlib

/-!
Verification of the streaming signal engine (algo.py, decider.py) of the
aia_algos repository.

Shallow embedding conventions:
- Python floats are modelled as exact rationals; the real-valued
  exponentiation in the EMA time weight is modelled over the reals.
- Timestamps are rationals counting seconds.
- Python None / numbers / strings flowing through the per-tick record
  dictionary are modelled by the Val type; the record dictionary is an
  association list with Python dict get/update semantics.
- Fallible code paths (Python TypeError on comparing None with a float)
  are modelled by Option.
-/

/-- A Python value stored in the per-tick record dictionary: None, a float
(modelled as an exact rational), or a string. -/
inductive Val
  | none
  | num (q : ℚ)
  | str (s : String)
deriving DecidableEq, Repr

/-- Python truthiness for record values: None is falsy, a number is truthy
iff nonzero, a string is truthy iff nonempty. -/
def Val.truthy : Val → Bool
  | .none => false
  | .num q => q != 0
  | .str s => s != ""

/-- Extract a number from a record value; comparing or doing arithmetic on a
non-number raises in Python, modelled as Option failure. -/
def Val.asNum : Val → Option ℚ
  | .num q => some q
  | _ => Option.none

/-- A Python dict with string keys, as an association list (unique keys in
all dictionaries the program builds). -/
abbrev Dict := List (String × Val)

/-- Python dict.get with default None. -/
def dget : Dict → String → Val
  | [], _ => Val.none
  | p :: t, k => if p.1 = k then p.2 else dget t k

/-- Python dict entry assignment: replace the first binding of the key,
append if absent. -/
def dset : Dict → String → Val → Dict
  | [], k, v => [(k, v)]
  | p :: t, k, v => if p.1 = k then (k, v) :: t else p :: dset t k v

/-- Python dict.update with a list of key/value pairs. -/
def dupdate (d : Dict) (kvs : List (String × Val)) : Dict :=
  kvs.foldl (fun d kv => dset d kv.1 kv.2) d

theorem dget_dset_self (d : Dict) (k : String) (v : Val) :
    dget (dset d k v) k = v := by
  induction d with
  | nil => simp [dset, dget]
  | cons p t ih =>
    by_cases h : p.1 = k
    · simp [dset, h, dget]
    · simpa [dset, h, dget] using ih

theorem dget_dset_ne (d : Dict) (k : String) (v : Val) (k' : String)
    (h : k' ≠ k) : dget (dset d k v) k' = dget d k' := by
  induction d with
  | nil => simp [dset, dget, Ne.symm h]
  | cons p t ih =>
    by_cases hp : p.1 = k
    · subst hp
      simp [dset, dget, Ne.symm h]
    · by_cases hk' : p.1 = k'
      · simp [dset, hp, dget, hk', h]
      · simpa [dset, hp, dget, hk'] using ih

theorem dget_dupdate_ne (kvs : List (String × Val)) (d : Dict) (k : String)
    (h : ∀ p ∈ kvs, p.1 ≠ k) : dget (dupdate d kvs) k = dget d k := by
  induction kvs generalizing d with
  | nil => rfl
  | cons kv t ih =>
    have hkv : kv.1 ≠ k := h kv (by simp)
    have ht : ∀ p ∈ t, p.1 ≠ k := fun p hp => h p (by simp [hp])
    calc dget (dupdate (dset d kv.1 kv.2) t) k
        = dget (dset d kv.1 kv.2) k := ih _ ht
      _ = dget d k := dget_dset_ne _ _ _ _ (Ne.symm hkv)

/-- Round-half-to-even of a rational to an integer (Python round on an
ideal, exactly represented value). -/
def roundHalfEven (x : ℚ) : ℤ :=
  let n := ⌊x⌋
  if x - n < 1 / 2 then n
  else if 1 / 2 < x - n then n + 1
  else if 2 ∣ n then n else n + 1

/-- Python round(x, p) for non-negative precision p. -/
def roundTo (x : ℚ) (p : ℕ) : ℚ :=
  (roundHalfEven (x * 10 ^ p) : ℚ) / 10 ^ p

/-! ## TimeBasedStreamingMA, SMA path (algo.py lines 66-68, 80-88, 120-181)

Only the state actually used by the SMA computation is embedded here; the
EMA-family running values live in separate calculators whose rounded
outputs feed the Algo state machine below, and whose time weight is
embedded separately as calculateTimeWeight. -/

structure SMAState where
  time_window : ℚ
  data_points : List (ℚ × ℚ)
  timestamps : List ℚ
  data_count : ℕ
deriving DecidableEq

def initSMA (w : ℚ) : SMAState :=
  { time_window := w, data_points := [], timestamps := [], data_count := 0 }

/-- The while loop of _clean_old_data (lines 85-88): pop from the front of
data_points while the head is older than the cutoff, popping the parallel
timestamps deque alongside when nonempty. -/
def cleanLoop (cutoff : ℚ) : List (ℚ × ℚ) → List ℚ → List (ℚ × ℚ) × List ℚ
  | [], tss => ([], tss)
  | p :: dps, tss =>
      if p.1 < cutoff then cleanLoop cutoff dps (tss.drop 1)
      else (p :: dps, tss)

/-- _clean_old_data (lines 80-88): cutoff is current - window. -/
def cleanOldData (s : SMAState) (current : ℚ) : SMAState :=
  let r := cleanLoop (current - s.time_window) s.data_points s.timestamps
  { s with data_points := r.1, timestamps := r.2 }

/-- _calculate_time_sma (lines 158-165, the return_full_window=False path):
mean of all retained prices, or the bare price on an empty window. -/
def calculateTimeSMA (s : SMAState) (price : ℚ) : ℚ :=
  if s.data_points.length = 0 then price
  else (s.data_points.map Prod.snd).sum / s.data_points.length

/-- add_data_point for an SMA-type calculator (lines 120-150): bump the
count, evict stale points, append the new point, return the mean. -/
def addDataPoint (s : SMAState) (t price : ℚ) : SMAState × ℚ :=
  let s := { s with data_count := s.data_count + 1 }
  let s := cleanOldData s t
  let s := { s with data_points := s.data_points ++ [(t, price)],
                    timestamps := s.timestamps ++ [t] }
  (s, calculateTimeSMA s price)

/-- Feed a list of ticks through an SMA calculator, collecting each
returned average. -/
def smaRun : SMAState → List (ℚ × ℚ) → SMAState × List ℚ
  | s, [] => (s, [])
  | s, a :: l =>
      let r := addDataPoint s a.1 a.2
      let rest := smaRun r.1 l
      (rest.1, r.2 :: rest.2)

/-- The points the code actually retains after a tick at time lastT:
timestamps at or after lastT - window (eviction uses a strict comparison). -/
def windowKeep (W lastT : ℚ) (l : List (ℚ × ℚ)) : List (ℚ × ℚ) :=
  l.filter (fun p => !decide (p.1 < lastT - W))

/-- The points the claim says are retained: timestamps strictly after
lastT - window. -/
def windowKeepClaim (W lastT : ℚ) (l : List (ℚ × ℚ)) : List (ℚ × ℚ) :=
  l.filter (fun p => decide (lastT - W < p.1))

/-- Arithmetic mean of the prices of a list of points. -/
def listMean (l : List (ℚ × ℚ)) : ℚ :=
  (l.map Prod.snd).sum / l.length

theorem smaRun_time_window (s : SMAState) (l : List (ℚ × ℚ)) :
    (smaRun s l).1.time_window = s.time_window := by
  induction l generalizing s with
  | nil => rfl
  | cons a t ih => simpa [smaRun, addDataPoint, cleanOldData] using ih _

theorem smaRun_append (s : SMAState) (l1 l2 : List (ℚ × ℚ)) :
    smaRun s (l1 ++ l2)
      = ((smaRun (smaRun s l1).1 l2).1,
         (smaRun s l1).2 ++ (smaRun (smaRun s l1).1 l2).2) := by
  induction l1 generalizing s with
  | nil => simp [smaRun]
  | cons a t ih => simp [smaRun, ih]

theorem cleanLoop_fst (c : ℚ) (dps : List (ℚ × ℚ)) (tss : List ℚ) :
    (cleanLoop c dps tss).1 = dps.dropWhile (fun p => decide (p.1 < c)) := by
  induction dps generalizing tss with
  | nil => rfl
  | cons p t ih =>
    by_cases h : p.1 < c
    · simp [cleanLoop, h, List.dropWhile, ih]
    · simp [cleanLoop, h, List.dropWhile]

theorem dropWhile_lt_eq_filter (c : ℚ) (l : List (ℚ × ℚ))
    (h : l.Pairwise (fun x y => x.1 ≤ y.1)) :
    l.dropWhile (fun p => decide (p.1 < c))
      = l.filter (fun p => !decide (p.1 < c)) := by
  induction l with
  | nil => rfl
  | cons a t ih =>
    rw [List.pairwise_cons] at h
    by_cases hc : a.1 < c
    · simp [List.dropWhile, List.filter, hc, ih h.2]
    · have hfa : decide (a.1 < c) = false := decide_eq_false hc
      simp only [List.dropWhile, List.filter, hfa, Bool.not_false]
      rw [List.filter_eq_self.mpr]
      intro b hb
      have hcb : c ≤ b.1 := le_trans (not_lt.mp hc) (h.1 b hb)
      simp [not_lt.mpr hcb]

theorem addDataPoint_data_points (s : SMAState) (t p : ℚ) :
    ((addDataPoint s t p).1).data_points
      = (cleanLoop (t - s.time_window) s.data_points s.timestamps).1 ++ [(t, p)] := rfl

theorem addDataPoint_snd (s : SMAState) (t p : ℚ) :
    (addDataPoint s t p).2 = calculateTimeSMA (addDataPoint s t p).1 p := rfl

/-- Claim C1 (amended): with a positive window W and strictly increasing
timestamps, after each tick the retained points are exactly those with
timestamp at or after lastT - W (the code evicts only strictly older points,
so a point exactly W old is retained), and the returned value is the mean of
that retained set.  Stated for an arbitrary nonempty tick sequence a :: l;
the property after tick k of a longer stream is this statement applied to
the length k+1 prefix. -/
theorem c1_amended_windowing (W : ℚ) (a : ℚ × ℚ) (l : List (ℚ × ℚ))
    (hW : 0 < W)
    (hsort : (a :: l).Pairwise fun x y => x.1 < y.1) :
    (smaRun (initSMA W) (a :: l)).1.data_points
        = windowKeep W (l.getLastD a).1 (a :: l) ∧
      (smaRun (initSMA W) (a :: l)).2.getLast?
        = some (listMean (windowKeep W (l.getLastD a).1 (a :: l))) := by
  revert hsort
  induction l using List.reverseRecOn with
  | nil =>
    intro _
    have h1 : ¬ a.1 < a.1 - W := by linarith
    constructor
    · simp [smaRun, addDataPoint, cleanOldData, cleanLoop, initSMA, windowKeep, h1]
    · simp [smaRun, addDataPoint, cleanOldData, cleanLoop, initSMA, windowKeep,
            calculateTimeSMA, listMean, h1]
  | append_singleton l' b ih =>
    intro hsort
    have hsub : (a :: l').Sublist ((a :: l') ++ [b]) := List.sublist_append_left _ _
    have hsortfull : ((a :: l') ++ [b]).Pairwise (fun x y : ℚ × ℚ => x.1 < y.1) := by
      simpa using hsort
    have hsort' : (a :: l').Pairwise (fun x y : ℚ × ℚ => x.1 < y.1) :=
      hsortfull.sublist hsub
    have hsplit := List.pairwise_append.mp hsortfull
    have hlt : ∀ x ∈ a :: l', x.1 < b.1 := fun x hx =>
      hsplit.2.2 x hx b (List.mem_singleton_self b)
    obtain ⟨ihd, _⟩ := ih hsort'
    have hlast : (l' ++ [b]).getLastD a = b := by
      simp [List.getLastD_eq_getLast?]
    have hrun : smaRun (initSMA W) (a :: (l' ++ [b]))
        = ((smaRun (smaRun (initSMA W) (a :: l')).1 [b]).1,
           (smaRun (initSMA W) (a :: l')).2
             ++ (smaRun (smaRun (initSMA W) (a :: l')).1 [b]).2) := by
      rw [show a :: (l' ++ [b]) = (a :: l') ++ [b] from rfl, smaRun_append]
    set s1 := (smaRun (initSMA W) (a :: l')).1 with hs1
    have hwin : s1.time_window = W := by
      rw [hs1, smaRun_time_window]; rfl
    -- the state after the final tick
    have hsorted1 : s1.data_points.Pairwise (fun x y : ℚ × ℚ => x.1 ≤ y.1) := by
      rw [ihd]
      exact ((hsort'.imp fun h => le_of_lt h).sublist (List.filter_sublist _))
    have hLmem : l'.getLastD a ∈ a :: l' := List.getLastD_mem_cons _ _
    have hLlt : (l'.getLastD a).1 < b.1 := hlt _ hLmem
    have hkeep : (cleanLoop (b.1 - s1.time_window) s1.data_points s1.timestamps).1
        = windowKeep W b.1 (a :: l') := by
      rw [cleanLoop_fst, hwin, dropWhile_lt_eq_filter _ _ hsorted1, ihd,
        windowKeep, windowKeep, List.filter_filter]
      refine List.filter_congr fun x hx => ?_
      by_cases hxb : x.1 < b.1 - W
      · have h1 : decide (x.1 < b.1 - W) = true := decide_eq_true hxb
        simp [h1]
      · have hxl : ¬ x.1 < (l'.getLastD a).1 - W := by
          push_neg at hxb ⊢
          linarith
        have h1 : decide (x.1 < b.1 - W) = false := decide_eq_false hxb
        have h2 : decide (x.1 < (l'.getLast?.getD a).1 - W) = false := by
          rw [← List.getLastD_eq_getLast?]
          exact decide_eq_false hxl
        simp [h1, h2]
    have hbkeep : ¬ b.1 < b.1 - W := by linarith
    have hnewdp : ((addDataPoint s1 b.1 b.2).1).data_points
        = windowKeep W b.1 ((a :: l') ++ [b]) := by
      rw [addDataPoint_data_points, hkeep]
      simp only [windowKeep]
      rw [List.filter_append]
      congr 1
      simp [List.filter, decide_eq_false hbkeep]
    constructor
    · rw [hrun, hlast]
      simpa [smaRun] using hnewdp
    · have hmem : b ∈ windowKeep W b.1 ((a :: l') ++ [b]) := by
        rw [windowKeep]
        refine List.mem_filter.mpr ⟨by simp, by simpa using hbkeep⟩
      have hne : (windowKeep W b.1 ((a :: l') ++ [b])).length ≠ 0 := by
        intro h
        rw [List.length_eq_zero.mp h] at hmem
        exact absurd hmem (List.not_mem_nil b)
      have houts : (smaRun s1 [b]).2 = [(addDataPoint s1 b.1 b.2).2] := by
        simp [smaRun]
      rw [hrun, hlast]
      dsimp only
      rw [houts, List.getLast?_concat]
      congr 1
      simp only [addDataPoint_snd, calculateTimeSMA, hnewdp]
      rw [if_neg hne, listMean]
      rfl

/-- Claim C1 counterexample: window 60, ticks at t=0 (price 1) and t=60
(price 3).  The tick at t=0 satisfies timestamp = t_k - W, so the claim says
it is evicted and the average is 3; the code keeps it (eviction is strict)
and returns the mean 2. -/
theorem c1_counterexample :
    (smaRun (initSMA 60) [(0, 1), (60, 3)]).2.getLast? = some 2 ∧
      listMean (windowKeepClaim 60 60 [(0, 1), (60, 3)]) = 3 ∧
      ((0 : ℚ), (1 : ℚ)) ∈ (smaRun (initSMA 60) [(0, 1), (60, 3)]).1.data_points ∧
      ¬ ((0 : ℚ), (1 : ℚ)) ∈ windowKeepClaim 60 60 [(0, 1), (60, 3)] ∧
      (2 : ℚ) ≠ 3 := by
  refine ⟨?_, ?_, ?_, ?_, by norm_num⟩
  · norm_num [smaRun, addDataPoint, cleanOldData, cleanLoop, initSMA, calculateTimeSMA]
  · norm_num [listMean, windowKeepClaim, List.filter]
  · norm_num [smaRun, addDataPoint, cleanOldData, cleanLoop, initSMA]
  · norm_num [windowKeepClaim, List.filter]

/-- Witness for the amended C1 theorem on the concrete run of its
counterexample input. -/
theorem c1_amended_witness :
    (smaRun (initSMA 60) [(0, 1), (60, 3)]).1.data_points
        = windowKeep 60 60 [(0, 1), (60, 3)] ∧
      (smaRun (initSMA 60) [(0, 1), (60, 3)]).2.getLast?
        = some (listMean (windowKeep 60 60 [(0, 1), (60, 3)])) := by
  have h := c1_amended_windowing 60 (0, 1) [(60, 3)] (by norm_num)
    (by norm_num [List.pairwise_cons])
  simpa using h

/-! ## _calculate_time_weight (algo.py lines 90-118)

The EMA-family time-adjusted smoothing weight.  Exponentiation of floats is
modelled by real-number rpow; the try/except fallback in the source guards
float overflow, which has no counterpart over the reals. -/

noncomputable def calculateTimeWeight (alpha currentTimestamp : ℝ)
    (lastTimestamp : Option ℝ) : ℝ :=
  match lastTimestamp with
  | Option.none => alpha
  | Option.some lt =>
      let timeElapsed := currentTimestamp - lt
      if timeElapsed ≤ 0 then alpha
      else if alpha ≤ 0 ∨ 1 ≤ alpha then alpha
      else min 1 (max 0 (1 - (1 - alpha) ^ (timeElapsed / 60)))

theorem calculateTimeWeight_nonpos (a e : ℝ) (he : e ≤ 0) :
    calculateTimeWeight a e (some 0) = a := by
  simp [calculateTimeWeight, he]

theorem calculateTimeWeight_pos_eval (a e : ℝ) (ha0 : 0 < a) (ha1 : a < 1)
    (he : 0 < e) :
    calculateTimeWeight a e (some 0) = 1 - (1 - a) ^ (e / 60) := by
  have hb0 : (0 : ℝ) < 1 - a := by linarith
  have hb1 : (1 : ℝ) - a < 1 := by linarith
  have hpow_pos : 0 < (1 - a) ^ (e / 60) := Real.rpow_pos_of_pos hb0 _
  have hpow_lt1 : (1 - a) ^ (e / 60) < 1 :=
    Real.rpow_lt_one (le_of_lt hb0) hb1 (by positivity)
  simp only [calculateTimeWeight, sub_zero]
  rw [if_neg (not_le.mpr he), if_neg (by push_neg; exact ⟨ha0, ha1⟩)]
  rw [max_eq_right (by linarith), min_eq_right (by linarith)]

/-- Claim C2 counterexample: with base alpha 1/2, the effective weight at
elapsed 30 is 1 - (1/2)^(1/2), which is strictly below both the weight at
elapsed 0 (namely alpha) and alpha itself, so the weight is neither
monotone across elapsed 0 nor bounded below by alpha. -/
theorem c2_counterexample :
    calculateTimeWeight (1/2) 30 (some 0) < calculateTimeWeight (1/2) 0 (some 0) ∧
      calculateTimeWeight (1/2) 30 (some 0) < 1/2 := by
  have h0 : calculateTimeWeight (1/2 : ℝ) 0 (some 0) = 1/2 :=
    calculateTimeWeight_nonpos _ _ le_rfl
  have h30 : calculateTimeWeight (1/2 : ℝ) 30 (some 0)
      = 1 - (1/2 : ℝ) ^ ((30 : ℝ) / 60) := by
    rw [calculateTimeWeight_pos_eval _ _ (by norm_num) (by norm_num) (by norm_num)]
    norm_num
  have hkey : (1/2 : ℝ) ^ (1 : ℝ) < (1/2 : ℝ) ^ ((30 : ℝ) / 60) :=
    Real.rpow_lt_rpow_of_exponent_gt (by norm_num) (by norm_num) (by norm_num)
  rw [Real.rpow_one] at hkey
  constructor
  · rw [h30, h0]; linarith
  · rw [h30]; linarith

/-- Claim C2 (amended): for base alpha in (0,1) the effective weight equals
alpha when elapsed is at most 0, is strictly increasing in elapsed on
positive elapsed, lies in [0,1] everywhere, and is at least alpha once
elapsed reaches the 60 second base interval; for elapsed in (0,60) it drops
below alpha, so the bound [alpha,1] claimed for every elapsed only holds
from 60 seconds on. -/
theorem c2_amended (a : ℝ) (ha0 : 0 < a) (ha1 : a < 1) :
    (∀ e1 e2 : ℝ, 0 < e1 → e1 < e2 →
        calculateTimeWeight a e1 (some 0) < calculateTimeWeight a e2 (some 0)) ∧
      (∀ e : ℝ, 0 ≤ calculateTimeWeight a e (some 0)
          ∧ calculateTimeWeight a e (some 0) ≤ 1) ∧
      (∀ e : ℝ, 60 ≤ e → a ≤ calculateTimeWeight a e (some 0)) ∧
      (∀ e : ℝ, e ≤ 0 → calculateTimeWeight a e (some 0) = a) := by
  have hb0 : (0 : ℝ) < 1 - a := by linarith
  have hb1 : (1 : ℝ) - a < 1 := by linarith
  refine ⟨?_, ?_, ?_, fun e he => calculateTimeWeight_nonpos a e he⟩
  · intro e1 e2 h1 h12
    rw [calculateTimeWeight_pos_eval a e1 ha0 ha1 h1,
      calculateTimeWeight_pos_eval a e2 ha0 ha1 (lt_trans h1 h12)]
    have : (1 - a) ^ (e2 / 60) < (1 - a) ^ (e1 / 60) :=
      Real.rpow_lt_rpow_of_exponent_gt hb0 hb1 (by linarith)
    linarith
  · intro e
    by_cases he : 0 < e
    · rw [calculateTimeWeight_pos_eval a e ha0 ha1 he]
      have hpos : 0 < (1 - a) ^ (e / 60) := Real.rpow_pos_of_pos hb0 _
      have hlt1 : (1 - a) ^ (e / 60) < 1 :=
        Real.rpow_lt_one (le_of_lt hb0) hb1 (by positivity)
      constructor <;> linarith
    · rw [calculateTimeWeight_nonpos a e (not_lt.mp he)]
      constructor <;> linarith
  · intro e he
    rw [calculateTimeWeight_pos_eval a e ha0 ha1 (by linarith)]
    have hle : (1 - a) ^ (e / 60) ≤ (1 - a) ^ (1 : ℝ) :=
      Real.rpow_le_rpow_of_exponent_ge hb0 (by linarith) (by linarith)
    rw [Real.rpow_one] at hle
    linarith

/-- Witness for the amended C2 theorem at alpha 1/2, comparing the weights
at elapsed 30 and 60 and the lower bound at elapsed 60. -/
theorem c2_amended_witness :
    calculateTimeWeight (1/2 : ℝ) 30 (some 0) < calculateTimeWeight (1/2 : ℝ) 60 (some 0) ∧
      (1/2 : ℝ) ≤ calculateTimeWeight (1/2 : ℝ) 60 (some 0) := by
  have h := c2_amended (1/2) (by norm_num) (by norm_num)
  exact ⟨h.1 30 60 (by norm_num) (by norm_num), h.2.2.1 60 (by norm_num)⟩

/-! ## TimeBasedStreamingMA.__init__ (algo.py lines 21-64)

The pandas time-window parser is an external library; a string input is
therefore modelled together with its parse result (None when pandas would
raise), and a timedelta input carries its length in seconds.  The source
replaces H by h before parsing, which only affects which strings parse. -/

inductive TimeWindowInput
  | str (parsed : Option ℚ)
  | td (seconds : ℚ)
  | other
deriving DecidableEq

/-- The configuration state stored by a successfully constructed
TimeBasedStreamingMA. -/
structure TWAConfig where
  ma_type : String
  window_seconds : ℚ
  alpha : ℚ
deriving DecidableEq

/-- The alpha-selection tail of __init__ (lines 54-64): derive the default
alpha from the window length in minutes (minimum one period), or validate a
supplied alpha against the open interval (0,1). -/
def initAlpha (mt : String) (w : ℚ) (alpha : Option ℚ) : Except String TWAConfig :=
  match alpha with
  | Option.none =>
      Except.ok { ma_type := mt, window_seconds := w,
                  alpha := 2 / (max 1 (w / 60) + 1) }
  | Option.some a =>
      if 0 < a ∧ a < 1 then
        Except.ok { ma_type := mt, window_seconds := w, alpha := a }
      else Except.error "alpha must be between 0 and 1"

/-- Python str.upper for the ASCII type names the program compares against. -/
def strUpper (s : String) : String := String.mk (s.data.map Char.toUpper)

/-- TimeBasedStreamingMA.__init__ (lines 21-64): uppercase and validate the
type, convert the window, then select alpha. -/
def initTWA (ma_type : String) (tw : TimeWindowInput) (alpha : Option ℚ) :
    Except String TWAConfig :=
  let mt := strUpper ma_type
  if ¬ (mt = "SMA" ∨ mt = "EMA" ∨ mt = "DEMA" ∨ mt = "TEMA") then
    Except.error "ma_type must be one of SMA EMA DEMA TEMA"
  else
    match tw with
    | TimeWindowInput.str Option.none => Except.error "bad window string"
    | TimeWindowInput.str (Option.some w) => initAlpha mt w alpha
    | TimeWindowInput.td w => initAlpha mt w alpha
    | TimeWindowInput.other => Except.error "time_window must be a string or timedelta"

/-- Whether construction succeeded. -/
def initOk (ma_type : String) (tw : TimeWindowInput) (alpha : Option ℚ) : Bool :=
  match initTWA ma_type tw alpha with
  | Except.ok _ => true
  | Except.error _ => false

/-- The window condition the code actually enforces: the input yields a
duration of any sign. -/
def windowParses : TimeWindowInput → Bool
  | TimeWindowInput.str (Option.some _) => true
  | TimeWindowInput.td _ => true
  | _ => false

/-- The window condition as the claim states it: the input yields a strictly
positive duration. -/
def windowParsesPositive : TimeWindowInput → Bool
  | TimeWindowInput.str (Option.some w) => 0 < w
  | TimeWindowInput.td w => 0 < w
  | _ => false

/-- Valid type names (case-insensitively, as the code uppercases first). -/
def maTypeOk (ma_type : String) : Bool :=
  strUpper ma_type = "SMA" ∨ strUpper ma_type = "EMA"
    ∨ strUpper ma_type = "DEMA" ∨ strUpper ma_type = "TEMA"

/-- A supplied alpha must lie in (0,1); an omitted alpha is always fine. -/
def alphaOk : Option ℚ → Bool
  | Option.none => true
  | Option.some a => 0 < a ∧ a < 1

/-- Claim C3 counterexample: a zero-length timedelta window is not a
positive duration, so the claim says construction must fail with a
ConfigError; the code never checks the sign of the parsed window and
construction succeeds. -/
theorem c3_counterexample :
    initOk "SMA" (TimeWindowInput.td 0) Option.none = true ∧
      windowParsesPositive (TimeWindowInput.td 0) = false := by
  constructor
  · decide
  · simp [windowParsesPositive]

/-- Claim C3 (amended): construction fails exactly when the type is not one
of SMA, EMA, DEMA, TEMA (up to case), or the window cannot be parsed into a
duration (of any sign - positivity is never checked), or a supplied alpha
lies outside the open interval (0,1). -/
theorem c3_amended (ma_type : String) (tw : TimeWindowInput) (alpha : Option ℚ) :
    initOk ma_type tw alpha
      = (maTypeOk ma_type && windowParses tw && alphaOk alpha) := by
  by_cases hmt : strUpper ma_type = "SMA" ∨ strUpper ma_type = "EMA"
      ∨ strUpper ma_type = "DEMA" ∨ strUpper ma_type = "TEMA"
  · cases tw with
    | str parsed =>
      cases parsed with
      | none => simp [initOk, initTWA, hmt, maTypeOk, windowParses, alphaOk]
      | some w =>
        cases alpha with
        | none => simp [initOk, initTWA, hmt, maTypeOk, windowParses, alphaOk, initAlpha]
        | some a =>
          by_cases ha : 0 < a ∧ a < 1
          · simp [initOk, initTWA, hmt, maTypeOk, windowParses, alphaOk, initAlpha, ha]
          · simp [initOk, initTWA, hmt, maTypeOk, windowParses, alphaOk, initAlpha, ha]
    | td w =>
      cases alpha with
      | none => simp [initOk, initTWA, hmt, maTypeOk, windowParses, alphaOk, initAlpha]
      | some a =>
        by_cases ha : 0 < a ∧ a < 1
        · simp [initOk, initTWA, hmt, maTypeOk, windowParses, alphaOk, initAlpha, ha]
        · simp [initOk, initTWA, hmt, maTypeOk, windowParses, alphaOk, initAlpha, ha]
    | other => simp [initOk, initTWA, hmt, maTypeOk, windowParses, alphaOk]
  · simp [initOk, initTWA, hmt, maTypeOk]

/-! ## Algo (algo.py lines 368-689)

The nine moving-average calculators are separate components; process_row
consumes their raw outputs, rounds them, and runs three crossover state
machines.  The embedding therefore passes the raw averages of the current
tick as inputs, quantifying over them where the claims quantify over ticks.
np.inf sentinels for the running min/max temporaries are modelled by Option
(none is plus infinity for a min temporary, minus infinity for a max
temporary); a latch can in Python receive an infinite temporary only if no
tick was processed while the direction was held, which the flip tick itself
prevents (lines 518-529 run after the direction update), so the latched
values are modelled as Option too. -/

/-- Python truthiness of an optional float: None and 0.0 are falsy. -/
def optTruthy : Option ℚ → Bool
  | Option.none => false
  | Option.some v => v != 0

/-- price < temp, where a missing min temporary means plus infinity. -/
def ltMinTemp (price : ℚ) : Option ℚ → Bool
  | Option.none => true
  | Option.some v => price < v

/-- temp < price, where a missing max temporary means minus infinity. -/
def gtMaxTemp (price : ℚ) : Option ℚ → Bool
  | Option.none => true
  | Option.some v => v < price

/-- Result of the crossover block shared by the base (lines 482-497), peak
(lines 554-567) and aspr (lines 616-626) timescales: new direction, new
stored cross price, the direction-change flag, and the cross price local
that goes into the record (set only on a flip). -/
structure DirStep where
  dir : Int
  cross : Option ℚ
  change : Int
  crossOut : Option ℚ
deriving DecidableEq

def directionStep (price ema tema : ℚ) (dir : Int) (cross : Option ℚ) : DirStep :=
  if tema < ema then
    if dir = 1 then ⟨-1, some price, -1, some price⟩
    else ⟨-1, cross, 0, Option.none⟩
  else if ema < tema then
    if dir = -1 then ⟨1, some price, 1, some price⟩
    else ⟨1, cross, 0, Option.none⟩
  else ⟨dir, cross, 0, Option.none⟩

/-- Lines 463-467: running maximum of the rounded percentage gap between
the rounded ema and tema. -/
def newBaseMampl (prec : ℕ) (price ema tema mampl : ℚ) : ℚ :=
  let t1 := roundTo |ema - tema| prec
  let t2 := if price ≠ 0 then roundTo (t1 / price * 100) prec else 0
  if mampl < t2 then t2 else mampl

/-- Lines 470-475: running maximum of the rounded percentage distance from
the stored cross price, skipped while the cross price is falsy. -/
def newBasePampl (prec : ℕ) (price : ℚ) (cross : Option ℚ) (pampl : ℚ) : ℚ :=
  if optTruthy cross then
    let cp := cross.getD 0
    let t1 := roundTo |price - cp| prec
    let t2 := if price ≠ 0 then roundTo (t1 / price * 100) prec else 0
    if pampl < t2 then t2 else pampl
  else pampl

/-- Lines 500-507: a signal fires on a flip only when the price is already
past the ema or the tema in the direction of the flip. -/
def baseSignalOf (change : Int) (price ema tema : ℚ) : Option Int :=
  if 0 < change then
    (if ema < price ∨ tema < price then some 1 else Option.none)
  else if change < 0 then
    (if price < ema ∨ price < tema then some (-1) else Option.none)
  else Option.none

/-- Lines 509-515: the debugging amplitude emitted as temp_value_1. -/
def baseMpamplOf (change : Int) (price ema tema : ℚ) : Option ℚ :=
  if 0 < change then
    (if ema < price ∨ tema < price then some |ema - price| else Option.none)
  else if change < 0 then
    (if price < ema ∨ price < tema then some |ema - price| else Option.none)
  else Option.none

/-- Result of the base min/max block (lines 517-529). -/
structure MinMaxStep where
  min_temp : Option ℚ
  max_temp : Option ℚ
  min_latch : Option ℚ
  max_latch : Option ℚ
deriving DecidableEq

def minMaxStep (price : ℚ) (dir change : Int) (minT maxT minL maxL : Option ℚ) :
    MinMaxStep :=
  let minT := if dir = -1 ∧ ltMinTemp price minT then some price else minT
  let r1 := if change = 1 then (minT, (Option.none : Option ℚ)) else (minL, minT)
  let minL := r1.1
  let minT := r1.2
  let maxT := if dir = 1 ∧ gtMaxTemp price maxT then some price else maxT
  let r2 := if change = -1 then (maxT, (Option.none : Option ℚ)) else (maxL, maxT)
  let maxL := r2.1
  let maxT := r2.2
  ⟨minT, maxT, minL, maxL⟩

/-- Result of the aspr min/max block (lines 628-642), which also retains the
previously latched extremes. -/
structure AsprMinMaxStep where
  min_temp : Option ℚ
  max_temp : Option ℚ
  min_latch : Option ℚ
  max_latch : Option ℚ
  min_prev : Option ℚ
  max_prev : Option ℚ
deriving DecidableEq

def asprMinMaxStep (price : ℚ) (dir change : Int)
    (minT maxT minL maxL minP maxP : Option ℚ) : AsprMinMaxStep :=
  let minT := if dir = -1 ∧ ltMinTemp price minT then some price else minT
  let r1 := if change = 1 then (minL, minT, (Option.none : Option ℚ))
            else (minP, minL, minT)
  let minP := r1.1
  let minL := r1.2.1
  let minT := r1.2.2
  let maxT := if dir = 1 ∧ gtMaxTemp price maxT then some price else maxT
  let r2 := if change = -1 then (maxL, maxT, (Option.none : Option ℚ))
            else (maxP, maxL, maxT)
  let maxP := r2.1
  let maxL := r2.2.1
  let maxT := r2.2.2
  ⟨minT, maxT, minL, maxL, minP, maxP⟩

/-- Lines 538-542: running maximum (by absolute value) of the percentage
move from the stored peak cross price. -/
def newPeakPampl (price : ℚ) (cross : Option ℚ) (pampl : ℚ) : ℚ :=
  if optTruthy cross then
    let cp := cross.getD 0
    let tmp := |(price - cp) / cp * 100|
    if |pampl| < |tmp| then tmp else pampl
  else pampl

/-- Lines 546-549: running maximum (by absolute value) of the value the
range tracker reports. -/
def newPeakTampl (calcVal tampl : ℚ) : ℚ :=
  let tmp := |calcVal|
  if |tampl| < |tmp| then tmp else tampl

/-- Modelled from the spec: helper.TimeBasedMovement (the RangeTracker of
section 4.2) is not under src.  add records the point after dropping points
older than the configured span, mirroring the eviction discipline of
TimeWindowAverage; clear discards all state. -/
def tbmAdd (span : ℚ) (pts : List (ℚ × ℚ)) (t p : ℚ) : List (ℚ × ℚ) :=
  pts.dropWhile (fun q => decide (q.1 < t - span)) ++ [(t, p)]

/-- Modelled from the spec: calc returns the magnitude of price movement
over the retained points (the spec leaves the exact rule open; a windowed
high/low range is the reading it suggests).  No claim depends on this
value. -/
def tbmCalc (pts : List (ℚ × ℚ)) : ℚ :=
  match pts with
  | [] => 0
  | q :: rest =>
      (rest.foldl (fun m r => max m r.2) q.2)
        - (rest.foldl (fun m r => min m r.2) q.2)

/-- Lines 584-587: the up follower ratchets toward price minus the follower
distance while the (already updated) direction is up. -/
def followerStepUp (price dist : ℚ) (dir : Int) (up : Option ℚ) : Option ℚ :=
  if 0 < dir then
    let distant := price - dist
    match up with
    | Option.none => some distant
    | Option.some u => if u < distant then some distant else some u
  else up

/-- Lines 589-592: the down follower ratchets toward price plus the
follower distance while the direction is down. -/
def followerStepDn (price dist : ℚ) (dir : Int) (dn : Option ℚ) : Option ℚ :=
  if 0 < dir then dn
  else if dir < 0 then
    let distant := price + dist
    match dn with
    | Option.none => some distant
    | Option.some u => if distant < u then some distant else some u
  else dn

/-- Lines 570-574: the peak signal is the bare direction-change flag. -/
def peakSignalOf (change : Int) : Option Int :=
  if 0 < change then some 1 else if change < 0 then some (-1) else Option.none

/-- Result of the aspr amplitude block (lines 644-650). -/
structure AsprAmps where
  min_amp : Option ℚ
  max_amp : Option ℚ
  mai_amp : Option ℚ
deriving DecidableEq

def asprAmplitudes (prec : ℕ) (price : ℚ) (minL minP maxL maxP : Option ℚ) :
    AsprAmps :=
  if optTruthy minL ∧ optTruthy minP ∧ optTruthy maxL ∧ optTruthy maxP then
    let mn := minL.getD 0
    let mnp := minP.getD 0
    let mx := maxL.getD 0
    let mxp := maxP.getD 0
    let minAmp := if price ≠ 0 then roundTo (|mn - mnp| / price * 100) prec else 0
    let maxAmp := if price ≠ 0 then roundTo (|mx - mxp| / price * 100) prec else 0
    let t1 := if price ≠ 0 then roundTo (|mx - price| / price * 100) prec else 0
    let t2 := if price ≠ 0 then roundTo (|mn - price| / price * 100) prec else 0
    ⟨some minAmp, some maxAmp, some (t1 + t2 / 2)⟩
  else ⟨Option.none, Option.none, Option.none⟩

def optVal : Option ℚ → Val
  | Option.none => Val.none
  | Option.some q => Val.num q

def optIntVal : Option Int → Val
  | Option.none => Val.none
  | Option.some n => Val.num n

/-- The mutable state of Algo (lines 380-429).  aspr_cross_price is created
dynamically on the first aspr flip in Python; it starts absent here. -/
structure AlgoState where
  base_ema_values : List ℚ
  base_tema_values : List ℚ
  slow_ema_values : List ℚ
  slow_tema_values : List ℚ
  aspr_ema_values : List ℚ
  aspr_tema_values : List ℚ
  peak_ema_values : List ℚ
  peak_tema_values : List ℚ
  peak_dema_values : List ℚ
  base_direction : Int
  base_cross_price : Option ℚ
  base_mamplitude : ℚ
  base_pamplitude : ℚ
  base_min_price_temp : Option ℚ
  base_max_price_temp : Option ℚ
  base_min_price : Option ℚ
  base_max_price : Option ℚ
  peak_direction : Int
  peak_cross_price : Option ℚ
  peak_pamplitude : ℚ
  peak_tamplitude : ℚ
  peak_follower_up : Option ℚ
  peak_follower_dn : Option ℚ
  peak_follower_distance : ℚ
  peak_tracker : List (ℚ × ℚ)
  aspr_direction : Int
  aspr_cross_price : Option ℚ
  aspr_min_price_temp : Option ℚ
  aspr_max_price_temp : Option ℚ
  aspr_min_price : Option ℚ
  aspr_max_price : Option ℚ
  aspr_min_price_previous : Option ℚ
  aspr_max_price_previous : Option ℚ
  aspr_sideways_count : ℕ
deriving DecidableEq

def initAlgo : AlgoState :=
  { base_ema_values := [], base_tema_values := [], slow_ema_values := [],
    slow_tema_values := [], aspr_ema_values := [], aspr_tema_values := [],
    peak_ema_values := [], peak_tema_values := [], peak_dema_values := [],
    base_direction := 0, base_cross_price := Option.none,
    base_mamplitude := 0, base_pamplitude := 0,
    base_min_price_temp := Option.none, base_max_price_temp := Option.none,
    base_min_price := Option.none, base_max_price := Option.none,
    peak_direction := 0, peak_cross_price := Option.none,
    peak_pamplitude := 0, peak_tamplitude := 0,
    peak_follower_up := Option.none, peak_follower_dn := Option.none,
    peak_follower_distance := 0.0002, peak_tracker := [],
    aspr_direction := 0, aspr_cross_price := Option.none,
    aspr_min_price_temp := Option.none, aspr_max_price_temp := Option.none,
    aspr_min_price := Option.none, aspr_max_price := Option.none,
    aspr_min_price_previous := Option.none, aspr_max_price_previous := Option.none,
    aspr_sideways_count := 0 }

/-- The per-tick inputs of process_row: the tick itself plus the raw
averages the nine calculators return for it. -/
structure RowInput where
  timestamp : ℚ
  price : ℚ
  base_ema_raw : ℚ
  base_tema_raw : ℚ
  aspr_ema_raw : ℚ
  aspr_tema_raw : ℚ
  peak_ema_raw : ℚ
  peak_tema_raw : ℚ
  peak_dema_raw : ℚ
deriving DecidableEq

/-- Algo.process_row (lines 432-689).  The say flag only gates an external
notification collaborator and has no effect on the computed state, so it is
omitted. -/
def processRow (prec : ℕ) (s : AlgoState) (inp : RowInput) : AlgoState × Dict :=
  let price := inp.price
  let base_ema := roundTo inp.base_ema_raw prec
  let base_tema := roundTo inp.base_tema_raw prec
  let aspr_ema := roundTo inp.aspr_ema_raw prec
  let aspr_tema := roundTo inp.aspr_tema_raw prec
  let peak_ema := roundTo inp.peak_ema_raw prec
  let peak_tema := roundTo inp.peak_tema_raw prec
  let peak_dema := roundTo inp.peak_dema_raw prec
  let m1 := newBaseMampl prec price base_ema base_tema s.base_mamplitude
  let p1 := newBasePampl prec price s.base_cross_price s.base_pamplitude
  let bstep := directionStep price base_ema base_tema s.base_direction s.base_cross_price
  let base_signal := baseSignalOf bstep.change price base_ema base_tema
  let base_mpampl := baseMpamplOf bstep.change price base_ema base_tema
  let bmm := minMaxStep price bstep.dir bstep.change s.base_min_price_temp
    s.base_max_price_temp s.base_min_price s.base_max_price
  let m2 := if bstep.change ≠ 0 then 0 else m1
  let p2 := if bstep.change ≠ 0 then 0 else p1
  let pp1 := newPeakPampl price s.peak_cross_price s.peak_pamplitude
  let tracker1 := tbmAdd 60 s.peak_tracker inp.timestamp price
  let pt1 := newPeakTampl (tbmCalc tracker1) s.peak_tamplitude
  let pstep := directionStep price peak_ema peak_tema s.peak_direction s.peak_cross_price
  let peak_signal := peakSignalOf pstep.change
  let pp2 := if pstep.change ≠ 0 then 0 else pp1
  let tracker2 := if pstep.change ≠ 0 then ([] : List (ℚ × ℚ)) else tracker1
  let pt2 := if pstep.change ≠ 0 then 0 else pt1
  let up1 := followerStepUp price s.peak_follower_distance pstep.dir s.peak_follower_up
  let dn1 := followerStepDn price s.peak_follower_distance pstep.dir s.peak_follower_dn
  let up2 := if pstep.change ≠ 0 then Option.none else up1
  let dn2 := if pstep.change ≠ 0 then Option.none else dn1
  let astep := directionStep price aspr_ema aspr_tema s.aspr_direction s.aspr_cross_price
  let amm := asprMinMaxStep price astep.dir astep.change s.aspr_min_price_temp
    s.aspr_max_price_temp s.aspr_min_price s.aspr_max_price
    s.aspr_min_price_previous s.aspr_max_price_previous
  let aamp := asprAmplitudes prec price amm.min_latch amm.min_prev amm.max_latch amm.max_prev
  let s2 : AlgoState :=
    { base_ema_values := s.base_ema_values ++ [base_ema]
      base_tema_values := s.base_tema_values ++ [base_tema]
      slow_ema_values := s.slow_ema_values
      slow_tema_values := s.slow_tema_values
      aspr_ema_values := s.aspr_ema_values ++ [aspr_ema]
      aspr_tema_values := s.aspr_tema_values ++ [aspr_tema]
      peak_ema_values := s.peak_ema_values ++ [peak_ema]
      peak_tema_values := s.peak_tema_values ++ [peak_tema]
      peak_dema_values := s.peak_dema_values ++ [peak_dema]
      base_direction := bstep.dir
      base_cross_price := bstep.cross
      base_mamplitude := m2
      base_pamplitude := p2
      base_min_price_temp := bmm.min_temp
      base_max_price_temp := bmm.max_temp
      base_min_price := bmm.min_latch
      base_max_price := bmm.max_latch
      peak_direction := pstep.dir
      peak_cross_price := pstep.cross
      peak_pamplitude := pp2
      peak_tamplitude := pt2
      peak_follower_up := up2
      peak_follower_dn := dn2
      peak_follower_distance := s.peak_follower_distance
      peak_tracker := tracker2
      aspr_direction := astep.dir
      aspr_cross_price := astep.cross
      aspr_min_price_temp := amm.min_temp
      aspr_max_price_temp := amm.max_temp
      aspr_min_price := amm.min_latch
      aspr_max_price := amm.max_latch
      aspr_min_price_previous := amm.min_prev
      aspr_max_price_previous := amm.max_prev
      aspr_sideways_count := s.aspr_sideways_count }
  let rd : Dict :=
    [("timestamp", Val.num inp.timestamp),
     ("price", Val.num price),
     ("base_signal", optIntVal base_signal),
     ("base_ema", Val.num base_ema),
     ("base_tema", Val.num base_tema),
     ("base_cross_price", optVal bstep.crossOut),
     ("base_direction", Val.num bstep.dir),
     ("base_mamplitude", Val.num m1),
     ("base_pamplitude", Val.num p1),
     ("base_min_price", optVal bmm.min_latch),
     ("base_max_price", optVal bmm.max_latch),
     ("peak_signal", optIntVal peak_signal),
     ("peak_cross_price", optVal pstep.crossOut),
     ("peak_direction", Val.num pstep.dir),
     ("peak_pamplitude", Val.num pp1),
     ("peak_tamplitude", Val.num pt1),
     ("peak_follower_up", optVal up2),
     ("peak_follower_dn", optVal dn2),
     ("aspr_min_price", optVal amm.min_latch),
     ("aspr_max_price", optVal amm.max_latch),
     ("temp_value_1", optVal base_mpampl),
     ("temp_value_2", optVal aamp.min_amp),
     ("temp_value_3", optVal aamp.max_amp),
     ("temp_value_4", Val.none)]
  (s2, rd)

/-- The keys process_row emits, in source order (lines 659-687). -/
def processRowKeys : List String :=
  ["timestamp", "price", "base_signal", "base_ema", "base_tema",
   "base_cross_price", "base_direction", "base_mamplitude", "base_pamplitude",
   "base_min_price", "base_max_price", "peak_signal", "peak_cross_price",
   "peak_direction", "peak_pamplitude", "peak_tamplitude",
   "peak_follower_up", "peak_follower_dn", "aspr_min_price", "aspr_max_price",
   "temp_value_1", "temp_value_2", "temp_value_3", "temp_value_4"]

theorem processRow_keys (prec : ℕ) (s : AlgoState) (inp : RowInput) :
    (processRow prec s inp).2.map Prod.fst = processRowKeys := rfl

/-- The rounded tema and ema lie on the same side as the stored direction
(or are exactly equal), so no crossover is detected. -/
def sameSide (tema ema : ℚ) (dir : Int) : Prop :=
  (tema < ema ∧ dir = -1) ∨ (ema < tema ∧ dir = 1) ∨ tema = ema

/-- The flip condition of the shared crossover block: tema strictly crossed
to the other side of ema relative to the stored direction. -/
def flipCond (tema ema : ℚ) (dir : Int) : Prop :=
  (tema < ema ∧ dir = 1) ∨ (ema < tema ∧ dir = -1)

theorem directionStep_sameSide (price ema tema : ℚ) (dir : Int) (cross : Option ℚ)
    (h : sameSide tema ema dir) :
    directionStep price ema tema dir cross = ⟨dir, cross, 0, Option.none⟩ := by
  rcases h with ⟨hlt, hdir⟩ | ⟨hlt, hdir⟩ | heq
  · subst hdir
    simp [directionStep, hlt]
  · subst hdir
    have h1 : ¬ tema < ema := not_lt.mpr (le_of_lt hlt)
    simp [directionStep, h1, hlt]
  · subst heq
    simp [directionStep]

theorem directionStep_change_ne_zero (price ema tema : ℚ) (dir : Int)
    (cross : Option ℚ) :
    (directionStep price ema tema dir cross).change ≠ 0 ↔ flipCond tema ema dir := by
  unfold directionStep flipCond
  split_ifs with h1 h2 h3 h4
  · simp [h1, h2]
  · simp [h2, not_lt.mpr (le_of_lt h1), h1]
  · simp [h3, h4]
  · simp [h4, h1]
  · simp [h1, h3]

/-- Claim C6: on a tick whose rounded tema and ema stay on the same side of
each other as the stored direction (including equality), each of the base,
aspr and peak machines keeps its direction and does not re-latch its cross
price. -/
theorem c6_crossover_idempotence (prec : ℕ) (s : AlgoState) (inp : RowInput) :
    (sameSide (roundTo inp.base_tema_raw prec) (roundTo inp.base_ema_raw prec)
        s.base_direction →
      (processRow prec s inp).1.base_direction = s.base_direction ∧
        (processRow prec s inp).1.base_cross_price = s.base_cross_price) ∧
      (sameSide (roundTo inp.aspr_tema_raw prec) (roundTo inp.aspr_ema_raw prec)
          s.aspr_direction →
        (processRow prec s inp).1.aspr_direction = s.aspr_direction ∧
          (processRow prec s inp).1.aspr_cross_price = s.aspr_cross_price) ∧
      (sameSide (roundTo inp.peak_tema_raw prec) (roundTo inp.peak_ema_raw prec)
          s.peak_direction →
        (processRow prec s inp).1.peak_direction = s.peak_direction ∧
          (processRow prec s inp).1.peak_cross_price = s.peak_cross_price) := by
  refine ⟨fun h => ?_, fun h => ?_, fun h => ?_⟩ <;>
    simp [processRow, directionStep_sameSide _ _ _ _ _ h]

/-- Claim C7: on a tick where the base machine flips, the stored base
mamplitude and pamplitude are exactly 0 afterwards; on a tick where the peak
machine flips, the stored peak pamplitude and tamplitude are exactly 0 and
the range tracker is cleared. -/
theorem c7_amplitude_reset (prec : ℕ) (s : AlgoState) (inp : RowInput) :
    (flipCond (roundTo inp.base_tema_raw prec) (roundTo inp.base_ema_raw prec)
        s.base_direction →
      (processRow prec s inp).1.base_mamplitude = 0 ∧
        (processRow prec s inp).1.base_pamplitude = 0) ∧
      (flipCond (roundTo inp.peak_tema_raw prec) (roundTo inp.peak_ema_raw prec)
          s.peak_direction →
        (processRow prec s inp).1.peak_pamplitude = 0 ∧
          (processRow prec s inp).1.peak_tamplitude = 0 ∧
          (processRow prec s inp).1.peak_tracker = []) := by
  constructor
  · intro h
    have hch :
        (directionStep inp.price (roundTo inp.base_ema_raw prec)
          (roundTo inp.base_tema_raw prec) s.base_direction s.base_cross_price).change ≠ 0 :=
      (directionStep_change_ne_zero _ _ _ _ _).mpr h
    simp [processRow, hch]
  · intro h
    have hch :
        (directionStep inp.price (roundTo inp.peak_ema_raw prec)
          (roundTo inp.peak_tema_raw prec) s.peak_direction s.peak_cross_price).change ≠ 0 :=
      (directionStep_change_ne_zero _ _ _ _ _).mpr h
    simp [processRow, hch]

/-- The peak machine flips on this tick. -/
def peakFlip (prec : ℕ) (s : AlgoState) (inp : RowInput) : Prop :=
  flipCond (roundTo inp.peak_tema_raw prec) (roundTo inp.peak_ema_raw prec)
    s.peak_direction

/-- Iterate process_row over a list of ticks, keeping the final state. -/
def processRows (prec : ℕ) : AlgoState → List RowInput → AlgoState
  | s, [] => s
  | s, i :: l => processRows prec (processRow prec s i).1 l

/-- No tick of the run flips the peak machine (the peak direction is held
throughout). -/
def noPeakFlipRun (prec : ℕ) : AlgoState → List RowInput → Prop
  | _, [] => True
  | s, i :: l => ¬ peakFlip prec s i ∧ noPeakFlipRun prec (processRow prec s i).1 l

theorem followerStepUp_some (price dist : ℚ) (dir : Int) (u : ℚ) :
    ∃ v, followerStepUp price dist dir (some u) = some v ∧ u ≤ v := by
  unfold followerStepUp
  split_ifs with h1
  · dsimp only
    by_cases h2 : u < price - dist
    · exact ⟨price - dist, by simp [h2], le_of_lt h2⟩
    · exact ⟨u, by simp [h2], le_rfl⟩
  · exact ⟨u, rfl, le_rfl⟩

theorem followerStepDn_some (price dist : ℚ) (dir : Int) (u : ℚ) :
    ∃ v, followerStepDn price dist dir (some u) = some v ∧ v ≤ u := by
  unfold followerStepDn
  split_ifs with h1 h2
  · exact ⟨u, rfl, le_rfl⟩
  · dsimp only
    by_cases h3 : price + dist < u
    · exact ⟨price + dist, by simp [h3], le_of_lt h3⟩
    · exact ⟨u, by simp [h3], le_rfl⟩
  · exact ⟨u, rfl, le_rfl⟩

theorem peak_follower_step (prec : ℕ) (s : AlgoState) (inp : RowInput)
    (h : ¬ peakFlip prec s inp) :
    (∀ u, s.peak_follower_up = some u →
        ∃ v, (processRow prec s inp).1.peak_follower_up = some v ∧ u ≤ v) ∧
      (∀ u, s.peak_follower_dn = some u →
        ∃ v, (processRow prec s inp).1.peak_follower_dn = some v ∧ v ≤ u) := by
  have hch :
      (directionStep inp.price (roundTo inp.peak_ema_raw prec)
        (roundTo inp.peak_tema_raw prec) s.peak_direction s.peak_cross_price).change = 0 := by
    by_contra hne
    exact h ((directionStep_change_ne_zero _ _ _ _ _).mp hne)
  constructor
  · intro u hu
    obtain ⟨v, hv, huv⟩ := followerStepUp_some inp.price s.peak_follower_distance
      (directionStep inp.price (roundTo inp.peak_ema_raw prec)
        (roundTo inp.peak_tema_raw prec) s.peak_direction s.peak_cross_price).dir u
    refine ⟨v, ?_, huv⟩
    simp [processRow, hch, hu, hv]
  · intro u hu
    obtain ⟨v, hv, huv⟩ := followerStepDn_some inp.price s.peak_follower_distance
      (directionStep inp.price (roundTo inp.peak_ema_raw prec)
        (roundTo inp.peak_tema_raw prec) s.peak_direction s.peak_cross_price).dir u
    refine ⟨v, ?_, huv⟩
    simp [processRow, hch, hu, hv]

/-- Claim C5: while the peak direction is held (no flip), an up follower
that is present never decreases across any run of ticks and a down follower
never increases; on a flip tick both followers become absent; and a present
follower only becomes absent on a flip tick. -/
theorem c5_follower_ratchet (prec : ℕ) :
    (∀ (s : AlgoState) (l : List RowInput), noPeakFlipRun prec s l →
        (∀ u, s.peak_follower_up = some u →
            ∃ v, (processRows prec s l).peak_follower_up = some v ∧ u ≤ v) ∧
          (∀ u, s.peak_follower_dn = some u →
            ∃ v, (processRows prec s l).peak_follower_dn = some v ∧ v ≤ u)) ∧
      (∀ (s : AlgoState) (inp : RowInput), peakFlip prec s inp →
        (processRow prec s inp).1.peak_follower_up = Option.none ∧
          (processRow prec s inp).1.peak_follower_dn = Option.none) ∧
      (∀ (s : AlgoState) (inp : RowInput),
        ((∃ u, s.peak_follower_up = some u) ∧
            (processRow prec s inp).1.peak_follower_up = Option.none) ∨
          ((∃ u, s.peak_follower_dn = some u) ∧
            (processRow prec s inp).1.peak_follower_dn = Option.none) →
        peakFlip prec s inp) := by
  refine ⟨?_, ?_, ?_⟩
  · intro s l
    induction l generalizing s with
    | nil => exact fun _ => ⟨fun u hu => ⟨u, hu, le_rfl⟩, fun u hu => ⟨u, hu, le_rfl⟩⟩
    | cons i t ih =>
      rintro ⟨h1, h2⟩
      have hstep := peak_follower_step prec s i h1
      have hrec := ih (processRow prec s i).1 h2
      constructor
      · intro u hu
        obtain ⟨v, hv, huv⟩ := hstep.1 u hu
        obtain ⟨w, hw, hvw⟩ := hrec.1 v hv
        exact ⟨w, hw, le_trans huv hvw⟩
      · intro u hu
        obtain ⟨v, hv, huv⟩ := hstep.2 u hu
        obtain ⟨w, hw, hvw⟩ := hrec.2 v hv
        exact ⟨w, hw, le_trans hvw huv⟩
  · intro s inp h
    have hch :
        (directionStep inp.price (roundTo inp.peak_ema_raw prec)
          (roundTo inp.peak_tema_raw prec) s.peak_direction s.peak_cross_price).change ≠ 0 :=
      (directionStep_change_ne_zero _ _ _ _ _).mpr h
    constructor <;> simp [processRow, hch]
  · intro s inp h
    by_contra hnf
    have hstep := peak_follower_step prec s inp hnf
    rcases h with ⟨⟨u, hu⟩, hnone⟩ | ⟨⟨u, hu⟩, hnone⟩
    · obtain ⟨v, hv, _⟩ := hstep.1 u hu
      rw [hnone] at hv
      exact Option.noConfusion hv
    · obtain ⟨v, hv, _⟩ := hstep.2 u hu
      rw [hnone] at hv
      exact Option.noConfusion hv

/-- A state holding both the base and the peak direction up, used as the
concrete start for the flip witnesses. -/
def flipState : AlgoState := { initAlgo with base_direction := 1, peak_direction := 1 }

/-- A tick whose raw tema sits below the raw ema on every timescale. -/
def flipInput : RowInput :=
  { timestamp := 0, price := 5, base_ema_raw := 2, base_tema_raw := 1,
    aspr_ema_raw := 2, aspr_tema_raw := 1, peak_ema_raw := 2,
    peak_tema_raw := 1, peak_dema_raw := 1 }

/-- Witness for C7 at a concrete state and tick flipping both the base and
the peak machine. -/
theorem c7_amplitude_reset_witness :
    (processRow 0 flipState flipInput).1.base_mamplitude = 0 ∧
      (processRow 0 flipState flipInput).1.base_pamplitude = 0 ∧
      (processRow 0 flipState flipInput).1.peak_pamplitude = 0 ∧
      (processRow 0 flipState flipInput).1.peak_tamplitude = 0 ∧
      (processRow 0 flipState flipInput).1.peak_tracker = [] := by
  have h := c7_amplitude_reset 0 flipState flipInput
  have hb := h.1 (by
    norm_num [flipCond, roundTo, roundHalfEven, flipState, flipInput, initAlgo])
  have hp := h.2 (by
    norm_num [flipCond, roundTo, roundHalfEven, flipState, flipInput, initAlgo])
  exact ⟨hb.1, hb.2, hp.1, hp.2.1, hp.2.2⟩

/-- A state whose three machines all point down with latched cross prices,
used as the concrete start for the idempotence witness. -/
def heldState : AlgoState :=
  { initAlgo with
    base_direction := -1, base_cross_price := some 5,
    aspr_direction := -1, aspr_cross_price := some 6,
    peak_direction := -1, peak_cross_price := some 4 }

/-- Witness for C6 at a concrete state and tick that stays on the same side
on all three timescales. -/
theorem c6_crossover_idempotence_witness :
    (processRow 0 heldState flipInput).1.base_direction = -1 ∧
      (processRow 0 heldState flipInput).1.base_cross_price = some 5 ∧
      (processRow 0 heldState flipInput).1.aspr_direction = -1 ∧
      (processRow 0 heldState flipInput).1.aspr_cross_price = some 6 ∧
      (processRow 0 heldState flipInput).1.peak_direction = -1 ∧
      (processRow 0 heldState flipInput).1.peak_cross_price = some 4 := by
  have h := c6_crossover_idempotence 0 heldState flipInput
  have hb := h.1 (by
    norm_num [sameSide, roundTo, roundHalfEven, heldState, initAlgo, flipInput])
  have ha := h.2.1 (by
    norm_num [sameSide, roundTo, roundHalfEven, heldState, initAlgo, flipInput])
  have hp := h.2.2 (by
    norm_num [sameSide, roundTo, roundHalfEven, heldState, initAlgo, flipInput])
  refine ⟨hb.1.trans rfl, hb.2.trans rfl, ha.1.trans rfl, ha.2.trans rfl,
    hp.1.trans rfl, hp.2.trans rfl⟩

/-- A state with the peak direction held up and an up follower present. -/
def ratchetState : AlgoState :=
  { initAlgo with peak_direction := 1, peak_follower_up := some 1 }

/-- A tick whose raw peak tema sits above the raw peak ema, so the held up
direction does not flip. -/
def ratchetInput : RowInput :=
  { timestamp := 0, price := 2, base_ema_raw := 1, base_tema_raw := 2,
    aspr_ema_raw := 1, aspr_tema_raw := 2, peak_ema_raw := 1,
    peak_tema_raw := 2, peak_dema_raw := 1 }

/-- Witness for C5 on a concrete one-tick run with the direction held: the
up follower stays present and does not decrease. -/
theorem c5_follower_ratchet_witness :
    noPeakFlipRun 0 ratchetState [ratchetInput] ∧
      (1 : ℚ) ≤ ((processRows 0 ratchetState [ratchetInput]).peak_follower_up.getD 0) := by
  have hq : noPeakFlipRun 0 ratchetState [ratchetInput] := by
    refine ⟨?_, trivial⟩
    norm_num [peakFlip, flipCond, roundTo, roundHalfEven, ratchetState,
      ratchetInput, initAlgo]
  refine ⟨hq, ?_⟩
  obtain ⟨v, hv, huv⟩ :=
    ((c5_follower_ratchet 0).1 ratchetState [ratchetInput] hq).1 1 rfl
  rw [hv]
  simpa using huv

/-! ## Decider (decider.py)

decide reads a process_row record, computes annotation values, and writes
them into the same dictionary with update; the only state it mutates is the
xtpk_found latch.  The helper functions updown and say_nonblocking are not
under src; say_nonblocking is a pure side effect and updown only renders
the message text, which no claim touches. -/

/-- Modelled from the spec: helper.updown is not under src; it renders the
sign of a signal as text for the message field. -/
def updown (s : ℚ) : String := if 0 < s then "up" else "dn"

/-- The Decider state (decider.py lines 13-30). -/
structure Decider where
  base_mamplitude_threshold : ℚ
  base_mamplitude_enough : Bool
  base_pamplitude_threshold : ℚ
  base_pamplitude_enough : Bool
  peak_pamplitude_threshold : ℚ
  peak_pamplitude_enough : Bool
  peak_tamplitude_threshold : ℚ
  peak_tamplitude_enough : Bool
  xtpk_found : Bool
  peak_extreme_distance : ℚ
  aspr_xamplitude_threshold : ℚ
  aspr_sideways_count : ℕ
  xtpk_price_dn_following_crossed : Bool
  xtpk_price_up_following_crossed : Bool
deriving DecidableEq

def initDecider : Decider :=
  { base_mamplitude_threshold := 0.02, base_mamplitude_enough := false,
    base_pamplitude_threshold := 0.03, base_pamplitude_enough := false,
    peak_pamplitude_threshold := 0.04, peak_pamplitude_enough := false,
    peak_tamplitude_threshold := 0.02, peak_tamplitude_enough := false,
    xtpk_found := false, peak_extreme_distance := 0.0002,
    aspr_xamplitude_threshold := 0.04, aspr_sideways_count := 0,
    xtpk_price_dn_following_crossed := false,
    xtpk_price_up_following_crossed := false }

/-- The decision locals threaded through decide. -/
structure DecAcc where
  decision : Val
  decision_algo : Val
  message : Val
  decision_up : Val
  decision_dn : Val
deriving DecidableEq

def initAcc : DecAcc := ⟨Val.none, Val.none, Val.none, Val.none, Val.none⟩

/-- The base region of decide (lines 38-69).  The and of the two threshold
comparisons is lazy, so the pamplitude is only compared (and must only be a
number) when the mamplitude comparison passes. -/
def baseRegion (self : Decider) (rd : Dict) : Option (DecAcc × Val × Val) := do
  let price := dget rd "price"
  let base_signal := dget rd "base_signal"
  let mut acc := initAcc
  let mut base_signal_up : Val := Val.none
  let mut base_signal_dn : Val := Val.none
  if base_signal.truthy then
    let bm ← (dget rd "base_mamplitude").asNum
    let mut enough := false
    if self.base_mamplitude_threshold ≤ bm then
      let bp ← (dget rd "base_pamplitude").asNum
      enough := self.base_pamplitude_threshold ≤ bp
    let bs ← base_signal.asNum
    if enough then
      acc := { acc with decision := base_signal, decision_algo := Val.str "base" }
      if 0 < bs then
        base_signal_up := price
        acc := { acc with decision_up := price }
      else if bs < 0 then
        base_signal_dn := price
        acc := { acc with decision_dn := price }
      acc := { acc with
        message := Val.str ("signal " ++ updown bs ++ " from algo base with enough amplitude") }
    else
      acc := { acc with decision := base_signal, decision_algo := Val.str "base" }
      if 0 < bs then
        if (dget rd "base_max_price").truthy then
          let mx ← (dget rd "base_max_price").asNum
          base_signal_up := Val.num (mx + 0.0001)
          acc := { acc with decision_up := Val.num (mx + 0.0001) }
      else if bs < 0 then
        if (dget rd "base_min_price").truthy then
          let mn ← (dget rd "base_min_price").asNum
          base_signal_dn := Val.num (mn - 0.0001)
          acc := { acc with decision_dn := Val.num (mn - 0.0001) }
      acc := { acc with
        message := Val.str ("signal " ++ updown bs ++ " from algo base without enough amplitude") }
  return (acc, base_signal_up, base_signal_dn)

/-- The confirmed-peak region of decide (lines 71-91). -/
def peakRegion (self : Decider) (rd : Dict) (acc0 : DecAcc) :
    Option (DecAcc × Val × Val) := do
  let price := dget rd "price"
  let peak_signal := dget rd "peak_signal"
  let mut acc := acc0
  let mut peak_signal_up : Val := Val.none
  let mut peak_signal_dn : Val := Val.none
  if peak_signal.truthy then
    let pp ← (dget rd "peak_pamplitude").asNum
    let mut enough := false
    if self.peak_pamplitude_threshold ≤ pp then
      let pt ← (dget rd "peak_tamplitude").asNum
      enough := self.peak_tamplitude_threshold ≤ pt
    if enough then
      let ps ← peak_signal.asNum
      acc := { acc with decision := peak_signal, decision_algo := Val.str "peak" }
      if 0 < ps then
        peak_signal_up := price
        acc := { acc with decision_up := price }
      else if ps < 0 then
        peak_signal_dn := price
        acc := { acc with decision_dn := price }
      acc := { acc with
        message := Val.str ("signal " ++ updown ps ++ " from algo peak with enough amplitude") }
  return (acc, peak_signal_up, peak_signal_dn)

/-- The extreme-peak region of decide (lines 93-108): evaluated on every
call, it gates on the amplitude thresholds, fires at most while the latch
is unset within one call, and resets the latch whenever the amplitude
condition fails. -/
def xtpkRegion (self : Decider) (rd : Dict) (acc0 : DecAcc) :
    Option (Decider × DecAcc × Val × Val) := do
  let price := dget rd "price"
  let mut self := self
  let mut acc := acc0
  let mut xtpk_signal_up : Val := Val.none
  let mut xtpk_signal_dn : Val := Val.none
  let pp ← (dget rd "peak_pamplitude").asNum
  let mut qual := false
  if self.peak_pamplitude_threshold ≤ pp then
    let pt ← (dget rd "peak_tamplitude").asNum
    qual := self.peak_tamplitude_threshold ≤ pt
  if qual then
    if !self.xtpk_found then
      let pfd := dget rd "peak_follower_dn"
      if pfd.truthy then
        let fd ← pfd.asNum
        let pq ← price.asNum
        if fd < pq then
          xtpk_signal_up := price
          acc := { acc with decision_up := price }
          self := { self with xtpk_found := true }
      let pfu := dget rd "peak_follower_up"
      if pfu.truthy then
        let fu ← pfu.asNum
        let pq ← price.asNum
        if pq < fu then
          xtpk_signal_dn := price
          acc := { acc with decision_dn := price }
          self := { self with xtpk_found := true }
  else
    self := { self with xtpk_found := false }
  return (self, acc, xtpk_signal_up, xtpk_signal_dn)

/-- The annotation values decide adds to the record. -/
structure Annots where
  base_signal_up : Val
  base_signal_dn : Val
  peak_signal_up : Val
  peak_signal_dn : Val
  xtpk_signal_up : Val
  xtpk_signal_dn : Val
  decision : Val
  decision_algo : Val
  message : Val
  decision_up : Val
  decision_dn : Val
deriving DecidableEq

/-- The update list of lines 112-130, in source order. -/
def annotPairs (d : Decider) (a : Annots) : List (String × Val) :=
  [("base_signal_up", a.base_signal_up),
   ("base_signal_dn", a.base_signal_dn),
   ("base_mamplitude_threshold", Val.num d.base_mamplitude_threshold),
   ("base_pamplitude_threshold", Val.num d.base_pamplitude_threshold),
   ("peak_signal_up", a.peak_signal_up),
   ("peak_signal_dn", a.peak_signal_dn),
   ("peak_pamplitude_threshold", Val.num d.peak_pamplitude_threshold),
   ("peak_tamplitude_threshold", Val.num d.peak_tamplitude_threshold),
   ("xtpk_signal_up", a.xtpk_signal_up),
   ("xtpk_signal_dn", a.xtpk_signal_dn),
   ("decision", a.decision),
   ("decision_algo", a.decision_algo),
   ("message", a.message),
   ("decision_up", a.decision_up),
   ("decision_dn", a.decision_dn)]

/-- decide without the final dict update: run the three regions in source
order and collect the annotation values and the new latch state. -/
def decideCore (self : Decider) (rd : Dict) : Option (Decider × Annots) :=
  match baseRegion self rd with
  | Option.none => Option.none
  | Option.some r1 =>
    match peakRegion self rd r1.1 with
    | Option.none => Option.none
    | Option.some r2 =>
      match xtpkRegion self rd r2.1 with
      | Option.none => Option.none
      | Option.some r3 =>
        some (r3.1, ⟨r1.2.1, r1.2.2, r2.2.1, r2.2.2, r3.2.2.1, r3.2.2.2,
          r3.2.1.decision, r3.2.1.decision_algo, r3.2.1.message,
          r3.2.1.decision_up, r3.2.1.decision_dn⟩)

/-- Decider.decide (lines 32-132): annotate the record in place and return
it together with the updated latch state. -/
def Decider.decide (self : Decider) (rd : Dict) : Option (Decider × Dict) :=
  match decideCore self rd with
  | Option.none => Option.none
  | Option.some r => some (r.1, dupdate rd (annotPairs r.1 r.2))

/-- Feed a list of records through one Decider, collecting the annotated
outputs. -/
def decideRun : Decider → List Dict → Option (Decider × List Dict)
  | d, [] => some (d, [])
  | d, r :: rs =>
    match Decider.decide d r with
    | Option.none => Option.none
    | Option.some x =>
      match decideRun x.1 rs with
      | Option.none => Option.none
      | Option.some y => some (y.1, x.2 :: y.2)

/-- The amplitude-qualification condition of lines 82 and 95 on a record,
relative to the thresholds in force. -/
def qualifies (d : Decider) (rd : Dict) : Bool :=
  match (dget rd "peak_pamplitude").asNum, (dget rd "peak_tamplitude").asNum with
  | some pp, some pt =>
      decide (d.peak_pamplitude_threshold ≤ pp)
        && decide (d.peak_tamplitude_threshold ≤ pt)
  | _, _ => false

/-- An annotated record carries an extreme-peak signal. -/
def xtpkEmitted (out : Dict) : Bool :=
  (dget out "xtpk_signal_up" != Val.none) || (dget out "xtpk_signal_dn" != Val.none)

theorem dget_annot_fields (rd : Dict) (d : Decider) (a : Annots) :
    dget (dupdate rd (annotPairs d a)) "base_signal_up" = a.base_signal_up ∧
      dget (dupdate rd (annotPairs d a)) "base_signal_dn" = a.base_signal_dn ∧
      dget (dupdate rd (annotPairs d a)) "xtpk_signal_up" = a.xtpk_signal_up ∧
      dget (dupdate rd (annotPairs d a)) "xtpk_signal_dn" = a.xtpk_signal_dn ∧
      dget (dupdate rd (annotPairs d a)) "decision" = a.decision ∧
      dget (dupdate rd (annotPairs d a)) "decision_algo" = a.decision_algo ∧
      dget (dupdate rd (annotPairs d a)) "decision_up" = a.decision_up ∧
      dget (dupdate rd (annotPairs d a)) "decision_dn" = a.decision_dn := by
  refine ⟨?_, ?_, ?_, ?_, ?_, ?_, ?_, ?_⟩ <;>
    simp [annotPairs, dupdate, dget_dset_ne, dget_dset_self]

/-- The keys decide adds or overwrites, in update order. -/
def annotKeys : List String :=
  ["base_signal_up", "base_signal_dn", "base_mamplitude_threshold",
   "base_pamplitude_threshold", "peak_signal_up", "peak_signal_dn",
   "peak_pamplitude_threshold", "peak_tamplitude_threshold",
   "xtpk_signal_up", "xtpk_signal_dn", "decision", "decision_algo",
   "message", "decision_up", "decision_dn"]

theorem annotPairs_keys (d : Decider) (a : Annots) :
    (annotPairs d a).map Prod.fst = annotKeys := rfl

theorem annot_keys_disjoint : ∀ k ∈ processRowKeys, ¬ k ∈ annotKeys := by
  decide

/-- Claim C9: decide returns the record augmented in place with only the
annotation fields; every key process_row emits keeps its value. -/
theorem c9_decide_frame (d : Decider) (rd : Dict) (d2 : Decider) (out : Dict)
    (h : Decider.decide d rd = some (d2, out)) :
    ∀ k ∈ processRowKeys, dget out k = dget rd k := by
  intro k hk
  cases hcore : decideCore d rd with
  | none =>
    have hnone : Decider.decide d rd = Option.none := by
      unfold Decider.decide
      rw [hcore]
    rw [hnone] at h
    exact Option.noConfusion h
  | some r =>
    have hdec : Decider.decide d rd = some (r.1, dupdate rd (annotPairs r.1 r.2)) := by
      unfold Decider.decide
      rw [hcore]
    rw [hdec] at h
    rw [Option.some.injEq, Prod.mk.injEq] at h
    rw [← h.2]
    apply dget_dupdate_ne
    intro p hp
    have hpk : p.1 ∈ annotKeys := by
      rw [← annotPairs_keys r.1 r.2]
      exact List.mem_map_of_mem Prod.fst hp
    intro heq
    rw [heq] at hpk
    exact annot_keys_disjoint k hk hpk

/-- A well-formed record with no active signals, used by the frame
witness. -/
def sampleRecord : Dict :=
  [("timestamp", Val.num 0), ("price", Val.num 1),
   ("base_signal", Val.none), ("base_mamplitude", Val.num 0),
   ("base_pamplitude", Val.num 0), ("base_min_price", Val.none),
   ("base_max_price", Val.none), ("peak_signal", Val.none),
   ("peak_pamplitude", Val.num 0), ("peak_tamplitude", Val.num 0),
   ("peak_follower_up", Val.none), ("peak_follower_dn", Val.none)]

/-- The annotation values decide computes on sampleRecord. -/
def sampleAnnots : Annots :=
  ⟨Val.none, Val.none, Val.none, Val.none, Val.none, Val.none,
   Val.none, Val.none, Val.none, Val.none, Val.none⟩

/-- Witness for C9 on a concrete record: the price survives decide. -/
theorem c9_decide_frame_witness :
    dget (((Decider.decide initDecider sampleRecord).getD (initDecider, [])).2)
        "price" = dget sampleRecord "price" := by
  have hb : baseRegion initDecider sampleRecord
      = some (⟨Val.none, Val.none, Val.none, Val.none, Val.none⟩, Val.none, Val.none) := by
    simp [baseRegion, sampleRecord, dget, Val.truthy, initAcc]
  have hp : peakRegion initDecider sampleRecord ⟨Val.none, Val.none, Val.none, Val.none, Val.none⟩
      = some (⟨Val.none, Val.none, Val.none, Val.none, Val.none⟩, Val.none, Val.none) := by
    simp [peakRegion, sampleRecord, dget, Val.truthy]
  have hx : xtpkRegion initDecider sampleRecord ⟨Val.none, Val.none, Val.none, Val.none, Val.none⟩
      = some ({ initDecider with xtpk_found := false },
          ⟨Val.none, Val.none, Val.none, Val.none, Val.none⟩, Val.none, Val.none) := by
    have h1 : ¬ ((0.04 : ℚ) ≤ 0) := by norm_num
    simp [xtpkRegion, sampleRecord, dget, Val.truthy, Val.asNum, initDecider, h1]
  have hcore : decideCore initDecider sampleRecord
      = some ({ initDecider with xtpk_found := false }, sampleAnnots) := by
    simp [decideCore, hb, hp, hx, sampleAnnots]
  have hdec : Decider.decide initDecider sampleRecord
      = some ({ initDecider with xtpk_found := false },
          dupdate sampleRecord
            (annotPairs { initDecider with xtpk_found := false } sampleAnnots)) := by
    unfold Decider.decide
    rw [hcore]
  rw [hdec]
  exact c9_decide_frame _ _ _ _ hdec "price" (by simp [processRowKeys])

theorem Val.asNum_some {v : Val} {q : ℚ} (h : v.asNum = some q) : v = Val.num q := by
  cases v <;> simp [Val.asNum] at h <;> simp [h]

theorem Val.asNum_num (q : ℚ) : (Val.num q).asNum = some q := rfl

theorem xtpkRegion_qual_found (d : Decider) (rd : Dict) (acc : DecAcc)
    (hq : qualifies d rd = true) (hf : d.xtpk_found = true) :
    xtpkRegion d rd acc = some (d, acc, Val.none, Val.none) := by
  unfold qualifies at hq
  rcases hpp : (dget rd "peak_pamplitude").asNum with _ | pp
  · rw [hpp] at hq; simp at hq
  rcases hpt : (dget rd "peak_tamplitude").asNum with _ | pt
  · rw [hpp, hpt] at hq; simp at hq
  rw [hpp, hpt] at hq
  simp only [Bool.and_eq_true, decide_eq_true_eq] at hq
  unfold xtpkRegion
  simp [hpp, hpt, hq.1, hq.2, hf]

theorem xtpkRegion_unqual (d : Decider) (rd : Dict) (acc : DecAcc)
    (r : Decider × DecAcc × Val × Val)
    (hq : qualifies d rd = false)
    (h : xtpkRegion d rd acc = some r) :
    r = ({ d with xtpk_found := false }, acc, Val.none, Val.none) := by
  unfold qualifies at hq
  rcases hpp : (dget rd "peak_pamplitude").asNum with _ | pp
  · unfold xtpkRegion at h
    rw [hpp] at h
    simp at h
  by_cases h1 : d.peak_pamplitude_threshold ≤ pp
  · rcases hpt : (dget rd "peak_tamplitude").asNum with _ | pt
    · unfold xtpkRegion at h
      rw [hpp, hpt] at h
      simp [h1] at h
    · rw [hpp, hpt] at hq
      have h2 : ¬ d.peak_tamplitude_threshold ≤ pt := by
        intro hB
        simp [h1, hB] at hq
      have hval : xtpkRegion d rd acc
          = some ({ d with xtpk_found := false }, acc, Val.none, Val.none) := by
        unfold xtpkRegion
        simp [hpp, hpt, h1, h2]
      rw [hval] at h
      rw [Option.some.injEq] at h
      exact h.symm
  · have hval : xtpkRegion d rd acc
        = some ({ d with xtpk_found := false }, acc, Val.none, Val.none) := by
      unfold xtpkRegion
      simp [hpp, h1]
    rw [hval] at h
    rw [Option.some.injEq] at h
    exact h.symm

set_option maxHeartbeats 2000000 in
theorem xtpkRegion_inv (d : Decider) (rd : Dict) (acc : DecAcc)
    (r : Decider × DecAcc × Val × Val)
    (h : xtpkRegion d rd acc = some r) :
    (r.2.2.1 = Val.none ∧ r.2.2.2 = Val.none ∧
        (r.1 = d ∨ r.1 = { d with xtpk_found := false })) ∨
      r.1 = { d with xtpk_found := true } := by
  rcases hpp : (dget rd "peak_pamplitude").asNum with _ | pp
  · have hval : xtpkRegion d rd acc = Option.none := by
      unfold xtpkRegion
      rw [hpp]
      simp
    rw [hval] at h
    exact Option.noConfusion h
  by_cases h1 : d.peak_pamplitude_threshold ≤ pp
  case neg =>
    have hval : xtpkRegion d rd acc
        = some ({ d with xtpk_found := false }, acc, Val.none, Val.none) := by
      unfold xtpkRegion
      simp [hpp, h1]
    rw [hval] at h
    rw [Option.some.injEq] at h
    left
    rw [← h]
    exact ⟨rfl, rfl, Or.inr rfl⟩
  case pos =>
  rcases hpt : (dget rd "peak_tamplitude").asNum with _ | pt
  · have hval : xtpkRegion d rd acc = Option.none := by
      unfold xtpkRegion
      simp [hpp, hpt, h1]
    rw [hval] at h
    exact Option.noConfusion h
  by_cases h3 : d.peak_tamplitude_threshold ≤ pt
  case neg =>
    have hval : xtpkRegion d rd acc
        = some ({ d with xtpk_found := false }, acc, Val.none, Val.none) := by
      unfold xtpkRegion
      simp [hpp, hpt, h1, h3]
    rw [hval] at h
    rw [Option.some.injEq] at h
    left
    rw [← h]
    exact ⟨rfl, rfl, Or.inr rfl⟩
  case pos =>
  by_cases hf : d.xtpk_found
  case pos =>
    have hval : xtpkRegion d rd acc = some (d, acc, Val.none, Val.none) := by
      unfold xtpkRegion
      simp [hpp, hpt, h1, h3, hf]
    rw [hval] at h
    rw [Option.some.injEq] at h
    left
    rw [← h]
    exact ⟨rfl, rfl, Or.inl rfl⟩
  case neg =>
    unfold xtpkRegion at h
    rcases hfd : dget rd "peak_follower_dn" with _ | fdq | fds
      <;> rcases hfu : dget rd "peak_follower_up" with _ | fuq | fus
      <;> rcases hpq : (dget rd "price").asNum with _ | pq
      <;> rw [hfd, hfu] at h
      <;> simp [Val.truthy, Val.asNum_num, hpq, hpp, hpt, h1, h3, hf] at h
      <;> (try split_ifs at h) <;> (try simp_all) <;> (try tauto)
    all_goals first
      | (rw [← h]; simp)
      | (rw [← h.2]; simp)
      | (rw [← h.2.2]; simp)

theorem decideCore_inv (d : Decider) (rd : Dict) (d2 : Decider) (a : Annots)
    (h : decideCore d rd = some (d2, a)) :
    ∃ r1 r2 r3, baseRegion d rd = some r1 ∧ peakRegion d rd r1.1 = some r2 ∧
      xtpkRegion d rd r2.1 = some r3 ∧ d2 = r3.1 ∧
      a.xtpk_signal_up = r3.2.2.1 ∧ a.xtpk_signal_dn = r3.2.2.2 := by
  unfold decideCore at h
  split at h
  · exact Option.noConfusion h
  rename_i r1 heq1
  split at h
  · exact Option.noConfusion h
  rename_i r2 heq2
  split at h
  · exact Option.noConfusion h
  rename_i r3 heq3
  rw [Option.some.injEq, Prod.mk.injEq] at h
  refine ⟨r1, r2, r3, heq1, heq2, heq3, h.1.symm, ?_, ?_⟩
  · rw [← h.2]
  · rw [← h.2]

theorem qualifies_congr (d1 d2 : Decider) (rd : Dict)
    (h1 : d1.peak_pamplitude_threshold = d2.peak_pamplitude_threshold)
    (h2 : d1.peak_tamplitude_threshold = d2.peak_tamplitude_threshold) :
    qualifies d1 rd = qualifies d2 rd := by
  unfold qualifies
  rw [h1, h2]

theorem decideRun_xtpk_count (rs : List Dict) :
    ∀ (d d2 : Decider) (outs : List Dict),
      (∀ r ∈ rs, qualifies d r = true) →
      decideRun d rs = some (d2, outs) →
      (outs.filter xtpkEmitted).length ≤ (if d.xtpk_found then 0 else 1) := by
  induction rs with
  | nil =>
    intro d d2 outs _ h
    have houts : outs = [] := by
      simp only [decideRun, Option.some.injEq, Prod.mk.injEq] at h
      exact h.2.symm
    rw [houts]
    simp only [List.filter_nil, List.length_nil]
    split <;> omega
  | cons r rs ih =>
    intro d d2 outs hq h
    unfold decideRun at h
    split at h
    · exact Option.noConfusion h
    rename_i x hx
    split at h
    · exact Option.noConfusion h
    rename_i y hy
    rw [Option.some.injEq, Prod.mk.injEq] at h
    have houts : outs = x.2 :: y.2 := h.2.symm
    obtain ⟨c, hc, hxval⟩ : ∃ c, decideCore d r = some c
        ∧ x = (c.1, dupdate r (annotPairs c.1 c.2)) := by
      unfold Decider.decide at hx
      rcases hcm : decideCore d r with _ | c
      · rw [hcm] at hx
        exact Option.noConfusion hx
      · have hdec : (match some c with
            | Option.none => (Option.none : Option (Decider × Dict))
            | Option.some rr => some (rr.1, dupdate r (annotPairs rr.1 rr.2)))
              = some (c.1, dupdate r (annotPairs c.1 c.2)) := rfl
        rw [hcm, hdec] at hx
        rw [Option.some.injEq] at hx
        exact ⟨c, rfl, hx.symm⟩
    have hannot := dget_annot_fields r c.1 c.2
    have hemit : xtpkEmitted x.2
        = ((c.2.xtpk_signal_up != Val.none) || (c.2.xtpk_signal_dn != Val.none)) := by
      rw [hxval]
      unfold xtpkEmitted
      rw [hannot.2.2.1, hannot.2.2.2.1]
    obtain ⟨r1, r2, r3, _, _, hx3, hd2, ha1, ha2⟩ := decideCore_inv d r c.1 c.2 hc
    have hqr : qualifies d r = true := hq r (List.mem_cons_self r rs)
    have hqrs : ∀ rr ∈ rs, qualifies d rr = true :=
      fun rr hrr => hq rr (List.mem_cons_of_mem r hrr)
    have hx1 : x.1 = c.1 := by rw [hxval]
    cases hfound : d.xtpk_found with
    | true =>
      have hL1 := xtpkRegion_qual_found d r r2.1 hqr hfound
      rw [hL1] at hx3
      rw [Option.some.injEq] at hx3
      have hr3 : r3 = (d, r2.1, Val.none, Val.none) := hx3.symm
      have hnoemit : xtpkEmitted x.2 = false := by
        rw [hemit, ha1, ha2, hr3]
        simp
      have hc1 : c.1 = d := by rw [hd2, hr3]
      have hcount := ih x.1 d2 y.2 (by rw [hx1, hc1]; exact hqrs) (by rw [← h.1]; exact hy)
      rw [hx1, hc1, hfound] at hcount
      rw [houts]
      simp only [List.filter_cons, hnoemit, if_false, hfound]
      simpa using hcount
    | false =>
      rcases xtpkRegion_inv d r r2.1 r3 hx3 with ⟨hs1, hs2, hor⟩ | hset
      · have hnoemit : xtpkEmitted x.2 = false := by
          rw [hemit, ha1, ha2, hs1, hs2]
          simp
        have hthr1 : x.1.peak_pamplitude_threshold = d.peak_pamplitude_threshold := by
          rw [hx1, hd2]
          rcases hor with h' | h' <;> rw [h']
        have hthr2 : x.1.peak_tamplitude_threshold = d.peak_tamplitude_threshold := by
          rw [hx1, hd2]
          rcases hor with h' | h' <;> rw [h']
        have hxf : x.1.xtpk_found = false := by
          rw [hx1, hd2]
          rcases hor with h' | h' <;> rw [h']
          exact hfound
        have hcount := ih x.1 d2 y.2
          (fun rr hrr => by rw [qualifies_congr x.1 d rr hthr1 hthr2]; exact hqrs rr hrr)
          (by rw [← h.1]; exact hy)
        rw [hxf] at hcount
        rw [houts]
        simp only [List.filter_cons, hnoemit, if_false, hfound]
        simpa using hcount
      · have hthr1 : x.1.peak_pamplitude_threshold = d.peak_pamplitude_threshold := by
          rw [hx1, hd2, hset]
        have hthr2 : x.1.peak_tamplitude_threshold = d.peak_tamplitude_threshold := by
          rw [hx1, hd2, hset]
        have hxf : x.1.xtpk_found = true := by
          rw [hx1, hd2, hset]
        have hcount := ih x.1 d2 y.2
          (fun rr hrr => by rw [qualifies_congr x.1 d rr hthr1 hthr2]; exact hqrs rr hrr)
          (by rw [← h.1]; exact hy)
        rw [hxf] at hcount
        simp only [if_true] at hcount
        rw [houts]
        show (List.filter xtpkEmitted (x.2 :: y.2)).length ≤ 1
        simp only [List.filter_cons]
        by_cases hemitb : xtpkEmitted x.2 = true
        · rw [if_pos hemitb, List.length_cons]
          omega
        · rw [if_neg hemitb]
          omega

theorem baseRegion_skip (d : Decider) (rd : Dict)
    (h : (dget rd "base_signal").truthy = false) :
    baseRegion d rd = some (initAcc, Val.none, Val.none) := by
  unfold baseRegion
  simp [h]

theorem peakRegion_skip (d : Decider) (rd : Dict) (acc : DecAcc)
    (h : (dget rd "peak_signal").truthy = false) :
    peakRegion d rd acc = some (acc, Val.none, Val.none) := by
  unfold peakRegion
  simp [h]

/-- Claim C8: within one amplitude-qualifying episode (a run of decide
calls on qualifying records starting with the latch unset), at most one
call emits an extreme-peak signal; and the latch resets to false on any
call where the amplitude conditions fail. -/
theorem c8_extreme_latch :
    (∀ (d : Decider) (rs : List Dict) (d2 : Decider) (outs : List Dict),
        d.xtpk_found = false → (∀ r ∈ rs, qualifies d r = true) →
        decideRun d rs = some (d2, outs) →
        (outs.filter xtpkEmitted).length ≤ 1) ∧
      (∀ (d : Decider) (r : Dict) (d2 : Decider) (out : Dict),
        Decider.decide d r = some (d2, out) → qualifies d r = false →
        d2.xtpk_found = false) := by
  constructor
  · intro d rs d2 outs hf hq h
    have hcount := decideRun_xtpk_count rs d d2 outs hq h
    rw [hf] at hcount
    simpa using hcount
  · intro d r d2 out h hq
    rcases hcm : decideCore d r with _ | c
    · have hnone : Decider.decide d r = Option.none := by
        unfold Decider.decide
        rw [hcm]
      rw [hnone] at h
      exact Option.noConfusion h
    · have hdec2 : Decider.decide d r = some (c.1, dupdate r (annotPairs c.1 c.2)) := by
        unfold Decider.decide
        rw [hcm]
      rw [hdec2, Option.some.injEq, Prod.mk.injEq] at h
      obtain ⟨r1, r2, r3, _, _, hx3, hc1, _, _⟩ := decideCore_inv d r c.1 c.2 hcm
      have hr3 := xtpkRegion_unqual d r r2.1 r3 hq hx3
      rw [← h.1, hc1, hr3]

/-- A qualifying record whose down follower sits below the price, so the
extreme rule can fire once. -/
def xtpkRecord : Dict :=
  [("price", Val.num 2), ("base_signal", Val.none), ("peak_signal", Val.none),
   ("peak_pamplitude", Val.num 1), ("peak_tamplitude", Val.num 1),
   ("peak_follower_dn", Val.num 1), ("peak_follower_up", Val.none)]

def xtpkFoundDecider : Decider := { initDecider with xtpk_found := true }

def xtpkAnnots1 : Annots :=
  ⟨Val.none, Val.none, Val.none, Val.none, Val.num 2, Val.none,
   Val.none, Val.none, Val.none, Val.num 2, Val.none⟩

/-- Witness for C8: two qualifying calls from an unset latch emit exactly
one extreme signal in total. -/
theorem c8_extreme_latch_witness :
    initDecider.xtpk_found = false ∧
      (∀ r ∈ [xtpkRecord, xtpkRecord], qualifies initDecider r = true) ∧
      ((((decideRun initDecider [xtpkRecord, xtpkRecord]).getD
          (initDecider, [])).2.filter xtpkEmitted).length ≤ 1) := by
  have hqual : qualifies initDecider xtpkRecord = true := by
    have c1 : (0.04 : ℚ) ≤ 1 := by norm_num
    have c2 : (0.02 : ℚ) ≤ 1 := by norm_num
    simp [qualifies, xtpkRecord, dget, Val.asNum, initDecider, c1, c2]
  have hq : ∀ r ∈ [xtpkRecord, xtpkRecord], qualifies initDecider r = true := by
    intro r hr
    simp only [List.mem_cons, List.not_mem_nil, or_false] at hr
    rcases hr with h' | h' <;> rw [h'] <;> exact hqual
  have hb1 : baseRegion initDecider xtpkRecord = some (initAcc, Val.none, Val.none) :=
    baseRegion_skip _ _ (by simp [xtpkRecord, dget, Val.truthy])
  have hp1 : peakRegion initDecider xtpkRecord initAcc
      = some (initAcc, Val.none, Val.none) :=
    peakRegion_skip _ _ _ (by simp [xtpkRecord, dget, Val.truthy])
  have hx1 : xtpkRegion initDecider xtpkRecord initAcc
      = some (xtpkFoundDecider, ⟨Val.none, Val.none, Val.none, Val.num 2, Val.none⟩,
          Val.num 2, Val.none) := by
    have c1 : (0.04 : ℚ) ≤ 1 := by norm_num
    have c2 : (0.02 : ℚ) ≤ 1 := by norm_num
    have c3 : (1 : ℚ) < 2 := by norm_num
    simp [xtpkRegion, xtpkRecord, dget, Val.truthy, Val.asNum, initDecider,
      xtpkFoundDecider, initAcc, c1, c2, c3]
  have hcore1 : decideCore initDecider xtpkRecord
      = some (xtpkFoundDecider, xtpkAnnots1) := by
    unfold decideCore
    simp [hb1, hp1, hx1, xtpkAnnots1]
  have hdec1 : Decider.decide initDecider xtpkRecord
      = some (xtpkFoundDecider, dupdate xtpkRecord (annotPairs xtpkFoundDecider xtpkAnnots1)) := by
    unfold Decider.decide
    rw [hcore1]
  have hqual2 : qualifies xtpkFoundDecider xtpkRecord = true := by
    rw [qualifies_congr xtpkFoundDecider initDecider xtpkRecord rfl rfl]
    exact hqual
  have hb2 : baseRegion xtpkFoundDecider xtpkRecord = some (initAcc, Val.none, Val.none) :=
    baseRegion_skip _ _ (by simp [xtpkRecord, dget, Val.truthy])
  have hp2 : peakRegion xtpkFoundDecider xtpkRecord initAcc
      = some (initAcc, Val.none, Val.none) :=
    peakRegion_skip _ _ _ (by simp [xtpkRecord, dget, Val.truthy])
  have hx2 : xtpkRegion xtpkFoundDecider xtpkRecord initAcc
      = some (xtpkFoundDecider, initAcc, Val.none, Val.none) :=
    xtpkRegion_qual_found _ _ _ hqual2 rfl
  have hcore2 : decideCore xtpkFoundDecider xtpkRecord
      = some (xtpkFoundDecider, sampleAnnots) := by
    unfold decideCore
    simp [hb2, hp2, hx2, sampleAnnots]
    simp [initAcc]
  have hdec2 : Decider.decide xtpkFoundDecider xtpkRecord
      = some (xtpkFoundDecider,
          dupdate xtpkRecord (annotPairs xtpkFoundDecider sampleAnnots)) := by
    unfold Decider.decide
    rw [hcore2]
  have hrun : decideRun initDecider [xtpkRecord, xtpkRecord]
      = some (xtpkFoundDecider,
          [dupdate xtpkRecord (annotPairs xtpkFoundDecider xtpkAnnots1),
           dupdate xtpkRecord (annotPairs xtpkFoundDecider sampleAnnots)]) := by
    simp only [decideRun, hdec1, hdec2]
  refine ⟨rfl, hq, ?_⟩
  rw [hrun]
  exact c8_extreme_latch.1 initDecider [xtpkRecord, xtpkRecord] _ _ rfl hq hrun

theorem baseRegion_provisional_up (d : Decider) (rd : Dict) (s bm bp mx : ℚ)
    (hs : dget rd "base_signal" = Val.num s) (hpos : 0 < s)
    (hbm : dget rd "base_mamplitude" = Val.num bm)
    (hbp : dget rd "base_pamplitude" = Val.num bp)
    (hfail : ¬ (d.base_mamplitude_threshold ≤ bm ∧ d.base_pamplitude_threshold ≤ bp))
    (hmx : dget rd "base_max_price" = Val.num mx) (hmx0 : mx ≠ 0) :
    baseRegion d rd = some
      (⟨Val.num s, Val.str "base",
        Val.str ("signal " ++ updown s ++ " from algo base without enough amplitude"),
        Val.num (mx + 0.0001), Val.none⟩,
       Val.num (mx + 0.0001), Val.none) := by
  have hs0 : s ≠ 0 := ne_of_gt hpos
  unfold baseRegion
  by_cases h1 : d.base_mamplitude_threshold ≤ bm
  · have h2 : ¬ d.base_pamplitude_threshold ≤ bp := fun h2 => hfail ⟨h1, h2⟩
    simp [hs, hbm, hbp, hmx, Val.truthy, Val.asNum_num, hs0, hpos, h1, h2, hmx0, initAcc]
  · simp [hs, hbm, hbp, hmx, Val.truthy, Val.asNum_num, hs0, hpos, h1, hmx0, initAcc]

theorem baseRegion_provisional_dn (d : Decider) (rd : Dict) (s bm bp mn : ℚ)
    (hs : dget rd "base_signal" = Val.num s) (hneg : s < 0)
    (hbm : dget rd "base_mamplitude" = Val.num bm)
    (hbp : dget rd "base_pamplitude" = Val.num bp)
    (hfail : ¬ (d.base_mamplitude_threshold ≤ bm ∧ d.base_pamplitude_threshold ≤ bp))
    (hmn : dget rd "base_min_price" = Val.num mn) (hmn0 : mn ≠ 0) :
    baseRegion d rd = some
      (⟨Val.num s, Val.str "base",
        Val.str ("signal " ++ updown s ++ " from algo base without enough amplitude"),
        Val.none, Val.num (mn - 0.0001)⟩,
       Val.none, Val.num (mn - 0.0001)) := by
  have hs0 : s ≠ 0 := ne_of_lt hneg
  have hnp : ¬ 0 < s := not_lt.mpr (le_of_lt hneg)
  unfold baseRegion
  by_cases h1 : d.base_mamplitude_threshold ≤ bm
  · have h2 : ¬ d.base_pamplitude_threshold ≤ bp := fun h2 => hfail ⟨h1, h2⟩
    simp [hs, hbm, hbp, hmn, Val.truthy, Val.asNum_num, hs0, hneg, hnp, h1, h2,
      hmn0, initAcc]
  · simp [hs, hbm, hbp, hmn, Val.truthy, Val.asNum_num, hs0, hneg, hnp, h1,
      hmn0, initAcc]

theorem baseRegion_provisional_up_nolatch (d : Decider) (rd : Dict) (s bm bp : ℚ)
    (hs : dget rd "base_signal" = Val.num s) (hpos : 0 < s)
    (hbm : dget rd "base_mamplitude" = Val.num bm)
    (hbp : dget rd "base_pamplitude" = Val.num bp)
    (hfail : ¬ (d.base_mamplitude_threshold ≤ bm ∧ d.base_pamplitude_threshold ≤ bp))
    (hmx : (dget rd "base_max_price").truthy = false) :
    baseRegion d rd = some
      (⟨Val.num s, Val.str "base",
        Val.str ("signal " ++ updown s ++ " from algo base without enough amplitude"),
        Val.none, Val.none⟩,
       Val.none, Val.none) := by
  have hs0 : s ≠ 0 := ne_of_gt hpos
  have hmx2 := hmx
  simp only [Val.truthy] at hmx2
  unfold baseRegion
  by_cases h1 : d.base_mamplitude_threshold ≤ bm
  · have h2 : ¬ d.base_pamplitude_threshold ≤ bp := fun h2 => hfail ⟨h1, h2⟩
    simp [hs, hbm, hbp, hmx, hmx2, Val.truthy, Val.asNum_num, hs0, hpos, h1, h2, initAcc]
  · simp [hs, hbm, hbp, hmx, hmx2, Val.truthy, Val.asNum_num, hs0, hpos, h1, initAcc]

theorem baseRegion_provisional_dn_nolatch (d : Decider) (rd : Dict) (s bm bp : ℚ)
    (hs : dget rd "base_signal" = Val.num s) (hneg : s < 0)
    (hbm : dget rd "base_mamplitude" = Val.num bm)
    (hbp : dget rd "base_pamplitude" = Val.num bp)
    (hfail : ¬ (d.base_mamplitude_threshold ≤ bm ∧ d.base_pamplitude_threshold ≤ bp))
    (hmn : (dget rd "base_min_price").truthy = false) :
    baseRegion d rd = some
      (⟨Val.num s, Val.str "base",
        Val.str ("signal " ++ updown s ++ " from algo base without enough amplitude"),
        Val.none, Val.none⟩,
       Val.none, Val.none) := by
  have hs0 : s ≠ 0 := ne_of_lt hneg
  have hnp : ¬ 0 < s := not_lt.mpr (le_of_lt hneg)
  have hmn2 := hmn
  simp only [Val.truthy] at hmn2
  unfold baseRegion
  by_cases h1 : d.base_mamplitude_threshold ≤ bm
  · have h2 : ¬ d.base_pamplitude_threshold ≤ bp := fun h2 => hfail ⟨h1, h2⟩
    simp [hs, hbm, hbp, hmn, hmn2, Val.truthy, Val.asNum_num, hs0, hneg, hnp, h1, h2, initAcc]
  · simp [hs, hbm, hbp, hmn, hmn2, Val.truthy, Val.asNum_num, hs0, hneg, hnp, h1, initAcc]

/-- Claim C4 (amended): for a record whose base_signal fails the amplitude
confirmation test (base_mamplitude below the 0.02 threshold or base_pamplitude
below the 0.03 threshold), when the peak region is inactive (no truthy
peak_signal and the extreme-peak amplitude test fails) decide produces a
provisional decision: decision is the base signal, decision_algo is "base",
and whenever the latched extreme on the signal side is present (a nonzero
number), the effective price is that extreme offset by 0.0001 in the adverse
direction (base_max_price + 0.0001 for an up signal, base_min_price - 0.0001
for a down signal).  The offset price can coincide with the raw tick price,
and an active peak region can override the effective prices, so neither
"never the raw tick price" nor unconditional latching holds. -/
theorem c4_amended (d : Decider) (rd : Dict) (d2 : Decider) (out : Dict)
    (s bm bp : ℚ)
    (hthr1 : d.base_mamplitude_threshold = 0.02)
    (hthr2 : d.base_pamplitude_threshold = 0.03)
    (hrun : Decider.decide d rd = some (d2, out))
    (hs : dget rd "base_signal" = Val.num s)
    (hbm : dget rd "base_mamplitude" = Val.num bm)
    (hbp : dget rd "base_pamplitude" = Val.num bp)
    (hfail : ¬ ((0.02 : ℚ) ≤ bm ∧ (0.03 : ℚ) ≤ bp))
    (hpeak : (dget rd "peak_signal").truthy = false)
    (hq : qualifies d rd = false)
    (hcase : (0 < s ∧ ∃ mx : ℚ, dget rd "base_max_price" = Val.num mx ∧ mx ≠ 0) ∨
             (s < 0 ∧ ∃ mn : ℚ, dget rd "base_min_price" = Val.num mn ∧ mn ≠ 0)) :
    dget out "decision" = Val.num s ∧
      dget out "decision_algo" = Val.str "base" ∧
      (∀ mx : ℚ, 0 < s → dget rd "base_max_price" = Val.num mx →
        dget out "decision_up" = Val.num (mx + 0.0001) ∧
          dget out "base_signal_up" = Val.num (mx + 0.0001)) ∧
      (∀ mn : ℚ, s < 0 → dget rd "base_min_price" = Val.num mn →
        dget out "decision_dn" = Val.num (mn - 0.0001) ∧
          dget out "base_signal_dn" = Val.num (mn - 0.0001)) := by
  have hfail' : ¬ (d.base_mamplitude_threshold ≤ bm ∧
      d.base_pamplitude_threshold ≤ bp) := by
    rw [hthr1, hthr2]; exact hfail
  rcases hcase with ⟨hpos, mx, hmx, hmx0⟩ | ⟨hneg, mn, hmn, hmn0⟩
  · have hbase := baseRegion_provisional_up d rd s bm bp mx hs hpos hbm hbp hfail' hmx hmx0
    have hpk := peakRegion_skip d rd
      (⟨Val.num s, Val.str "base",
        Val.str ("signal " ++ updown s ++ " from algo base without enough amplitude"),
        Val.num (mx + 0.0001), Val.none⟩) hpeak
    rcases hx3 : xtpkRegion d rd
        (⟨Val.num s, Val.str "base",
          Val.str ("signal " ++ updown s ++ " from algo base without enough amplitude"),
          Val.num (mx + 0.0001), Val.none⟩) with _ | r3
    · have hnone : Decider.decide d rd = Option.none := by
        unfold Decider.decide decideCore
        rw [hbase]
        simp [hpk, hx3]
      rw [hnone] at hrun
      exact Option.noConfusion hrun
    · have hr3 := xtpkRegion_unqual d rd _ r3 hq hx3
      subst hr3
      have hdec : Decider.decide d rd = some ({ d with xtpk_found := false },
          dupdate rd (annotPairs { d with xtpk_found := false }
            ⟨Val.num (mx + 0.0001), Val.none, Val.none, Val.none, Val.none, Val.none,
             Val.num s, Val.str "base",
             Val.str ("signal " ++ updown s ++ " from algo base without enough amplitude"),
             Val.num (mx + 0.0001), Val.none⟩)) := by
        unfold Decider.decide decideCore
        rw [hbase]
        simp [hpk, hx3]
      rw [hdec, Option.some.injEq, Prod.mk.injEq] at hrun
      obtain ⟨hd2, hout⟩ := hrun
      have hf := dget_annot_fields rd { d with xtpk_found := false }
        ⟨Val.num (mx + 0.0001), Val.none, Val.none, Val.none, Val.none, Val.none,
         Val.num s, Val.str "base",
         Val.str ("signal " ++ updown s ++ " from algo base without enough amplitude"),
         Val.num (mx + 0.0001), Val.none⟩
      refine ⟨?_, ?_, ?_, ?_⟩
      · rw [← hout]; exact hf.2.2.2.2.1
      · rw [← hout]; exact hf.2.2.2.2.2.1
      · intro mx' _ hmx'
        have hmm := Val.num.inj (hmx.symm.trans hmx')
        subst hmm
        exact ⟨by rw [← hout]; exact hf.2.2.2.2.2.2.1, by rw [← hout]; exact hf.1⟩
      · intro mn hneg' _
        exact absurd hneg' (not_lt.mpr (le_of_lt hpos))
  · have hbase := baseRegion_provisional_dn d rd s bm bp mn hs hneg hbm hbp hfail' hmn hmn0
    have hpk := peakRegion_skip d rd
      (⟨Val.num s, Val.str "base",
        Val.str ("signal " ++ updown s ++ " from algo base without enough amplitude"),
        Val.none, Val.num (mn - 0.0001)⟩) hpeak
    rcases hx3 : xtpkRegion d rd
        (⟨Val.num s, Val.str "base",
          Val.str ("signal " ++ updown s ++ " from algo base without enough amplitude"),
          Val.none, Val.num (mn - 0.0001)⟩) with _ | r3
    · have hnone : Decider.decide d rd = Option.none := by
        unfold Decider.decide decideCore
        rw [hbase]
        simp [hpk, hx3]
      rw [hnone] at hrun
      exact Option.noConfusion hrun
    · have hr3 := xtpkRegion_unqual d rd _ r3 hq hx3
      subst hr3
      have hdec : Decider.decide d rd = some ({ d with xtpk_found := false },
          dupdate rd (annotPairs { d with xtpk_found := false }
            ⟨Val.none, Val.num (mn - 0.0001), Val.none, Val.none, Val.none, Val.none,
             Val.num s, Val.str "base",
             Val.str ("signal " ++ updown s ++ " from algo base without enough amplitude"),
             Val.none, Val.num (mn - 0.0001)⟩)) := by
        unfold Decider.decide decideCore
        rw [hbase]
        simp [hpk, hx3]
      rw [hdec, Option.some.injEq, Prod.mk.injEq] at hrun
      obtain ⟨hd2, hout⟩ := hrun
      have hf := dget_annot_fields rd { d with xtpk_found := false }
        ⟨Val.none, Val.num (mn - 0.0001), Val.none, Val.none, Val.none, Val.none,
         Val.num s, Val.str "base",
         Val.str ("signal " ++ updown s ++ " from algo base without enough amplitude"),
         Val.none, Val.num (mn - 0.0001)⟩
      refine ⟨?_, ?_, ?_, ?_⟩
      · rw [← hout]; exact hf.2.2.2.2.1
      · rw [← hout]; exact hf.2.2.2.2.2.1
      · intro mx' hpos' _
        exact absurd hpos' (not_lt.mpr (le_of_lt hneg))
      · intro mn' _ hmn'
        have hmm := Val.num.inj (hmn.symm.trans hmn')
        subst hmm
        exact ⟨by rw [← hout]; exact hf.2.2.2.2.2.2.2, by rw [← hout]; exact hf.2.1⟩

/-- A record whose base signal fails the mamplitude test, whose latched
base maximum is 1, and whose raw tick price is exactly 1.0001, so that the
provisional price 1 + 0.0001 coincides with the raw tick price. -/
def c4record : Dict :=
  [("price", Val.num 1.0001), ("base_signal", Val.num 1),
   ("base_mamplitude", Val.num 0.01), ("base_pamplitude", Val.num 1),
   ("base_max_price", Val.num 1), ("base_min_price", Val.none),
   ("peak_signal", Val.none), ("peak_pamplitude", Val.num 0),
   ("peak_tamplitude", Val.num 0), ("peak_follower_up", Val.none),
   ("peak_follower_dn", Val.none)]

/-- The annotation values decide computes on c4record. -/
def c4annots : Annots :=
  ⟨Val.num (1 + 0.0001), Val.none, Val.none, Val.none, Val.none, Val.none,
   Val.num 1, Val.str "base",
   Val.str ("signal " ++ updown 1 ++ " from algo base without enough amplitude"),
   Val.num (1 + 0.0001), Val.none⟩

theorem c4_decide_eval :
    Decider.decide initDecider c4record
      = some ({ initDecider with xtpk_found := false },
          dupdate c4record (annotPairs { initDecider with xtpk_found := false }
            c4annots)) := by
  have hq0 : ¬ (0.04 : ℚ) ≤ 0 := by norm_num
  have hfail : ¬ (initDecider.base_mamplitude_threshold ≤ (0.01 : ℚ) ∧
      initDecider.base_pamplitude_threshold ≤ (1 : ℚ)) := by
    norm_num [initDecider]
  have hbase := baseRegion_provisional_up initDecider c4record 1 0.01 1 1
    (by simp [c4record, dget]) (by norm_num) (by simp [c4record, dget])
    (by simp [c4record, dget]) hfail (by simp [c4record, dget]) (by norm_num)
  have hpk := peakRegion_skip initDecider c4record
    (⟨Val.num 1, Val.str "base",
      Val.str ("signal " ++ updown 1 ++ " from algo base without enough amplitude"),
      Val.num (1 + 0.0001), Val.none⟩)
    (by simp [c4record, dget, Val.truthy])
  have hx3 : xtpkRegion initDecider c4record
      (⟨Val.num 1, Val.str "base",
        Val.str ("signal " ++ updown 1 ++ " from algo base without enough amplitude"),
        Val.num (1 + 0.0001), Val.none⟩)
      = some ({ initDecider with xtpk_found := false },
          ⟨Val.num 1, Val.str "base",
            Val.str ("signal " ++ updown 1 ++ " from algo base without enough amplitude"),
            Val.num (1 + 0.0001), Val.none⟩, Val.none, Val.none) := by
    simp [xtpkRegion, c4record, dget, Val.asNum, initDecider, hq0]
  unfold Decider.decide decideCore
  rw [hbase]
  simp [hpk, hx3, c4annots]

/-- Claim C4, counterexample: on c4record the base signal is up with
base_mamplitude 0.01 below the 0.02 threshold, so the claim's scope applies,
yet the effective price decide produces equals the raw tick price 1.0001,
contradicting "never the raw tick price". -/
theorem c4_counterexample :
    dget c4record "base_signal" = Val.num 1 ∧
      dget c4record "base_mamplitude" = Val.num 0.01 ∧
      ¬ ((0.02 : ℚ) ≤ 0.01) ∧
      dget (((Decider.decide initDecider c4record).getD (initDecider, [])).2)
          "decision_up"
        = dget c4record "price" := by
  refine ⟨by simp [c4record, dget], by simp [c4record, dget], by norm_num, ?_⟩
  rw [c4_decide_eval]
  simp only [Option.getD_some]
  have hf := (dget_annot_fields c4record { initDecider with xtpk_found := false }
    c4annots).2.2.2.2.2.2.1
  rw [hf]
  have h1 : (1 + 0.0001 : ℚ) = 1.0001 := by norm_num
  simp [c4annots, c4record, dget, h1]

theorem c4_amended_witness :
    dget (((Decider.decide initDecider c4record).getD (initDecider, [])).2)
        "decision" = Val.num 1 ∧
      dget (((Decider.decide initDecider c4record).getD (initDecider, [])).2)
        "decision_up" = Val.num (1 + 0.0001) := by
  have hq : qualifies initDecider c4record = false := by
    have hq0 : ¬ (0.04 : ℚ) ≤ 0 := by norm_num
    simp [qualifies, c4record, dget, Val.asNum, initDecider, hq0]
  have h := c4_amended initDecider c4record { initDecider with xtpk_found := false }
    (dupdate c4record (annotPairs { initDecider with xtpk_found := false } c4annots))
    1 0.01 1 rfl rfl c4_decide_eval
    (by simp [c4record, dget]) (by simp [c4record, dget]) (by simp [c4record, dget])
    (by norm_num) (by simp [c4record, dget, Val.truthy]) hq
    (Or.inl ⟨by norm_num, 1, by simp [c4record, dget], by norm_num⟩)
  rw [c4_decide_eval]
  simp only [Option.getD_some]
  exact ⟨h.1, (h.2.2.1 1 (by norm_num) (by simp [c4record, dget])).1⟩

/-- Claim C10 (amended): for a record whose base_signal fails the amplitude
confirmation test and whose latched extreme on the signal side is absent
(falsy), when the peak region is inactive (no truthy peak_signal and the
extreme-peak amplitude test fails) decide still sets decision to the base
signal and decision_algo to "base" but leaves both effective prices
decision_up and decision_dn as None, so a decision is emitted with no
effective price.  An active peak region can override decision_algo and the
effective prices, so the unconditional form of the claim does not hold. -/
theorem c10_amended (d : Decider) (rd : Dict) (d2 : Decider) (out : Dict)
    (s bm bp : ℚ)
    (hthr1 : d.base_mamplitude_threshold = 0.02)
    (hthr2 : d.base_pamplitude_threshold = 0.03)
    (hrun : Decider.decide d rd = some (d2, out))
    (hs : dget rd "base_signal" = Val.num s)
    (hbm : dget rd "base_mamplitude" = Val.num bm)
    (hbp : dget rd "base_pamplitude" = Val.num bp)
    (hfail : ¬ ((0.02 : ℚ) ≤ bm ∧ (0.03 : ℚ) ≤ bp))
    (hpeak : (dget rd "peak_signal").truthy = false)
    (hq : qualifies d rd = false)
    (hcase : (0 < s ∧ (dget rd "base_max_price").truthy = false) ∨
             (s < 0 ∧ (dget rd "base_min_price").truthy = false)) :
    dget out "decision" = Val.num s ∧
      dget out "decision_algo" = Val.str "base" ∧
      dget out "decision_up" = Val.none ∧
      dget out "decision_dn" = Val.none := by
  have hfail' : ¬ (d.base_mamplitude_threshold ≤ bm ∧
      d.base_pamplitude_threshold ≤ bp) := by
    rw [hthr1, hthr2]; exact hfail
  have hbase : baseRegion d rd = some
      (⟨Val.num s, Val.str "base",
        Val.str ("signal " ++ updown s ++ " from algo base without enough amplitude"),
        Val.none, Val.none⟩,
       Val.none, Val.none) := by
    rcases hcase with ⟨hpos, hmx⟩ | ⟨hneg, hmn⟩
    · exact baseRegion_provisional_up_nolatch d rd s bm bp hs hpos hbm hbp hfail' hmx
    · exact baseRegion_provisional_dn_nolatch d rd s bm bp hs hneg hbm hbp hfail' hmn
  have hpk := peakRegion_skip d rd
    (⟨Val.num s, Val.str "base",
      Val.str ("signal " ++ updown s ++ " from algo base without enough amplitude"),
      Val.none, Val.none⟩) hpeak
  rcases hx3 : xtpkRegion d rd
      (⟨Val.num s, Val.str "base",
        Val.str ("signal " ++ updown s ++ " from algo base without enough amplitude"),
        Val.none, Val.none⟩) with _ | r3
  · have hnone : Decider.decide d rd = Option.none := by
      unfold Decider.decide decideCore
      rw [hbase]
      simp [hpk, hx3]
    rw [hnone] at hrun
    exact Option.noConfusion hrun
  · have hr3 := xtpkRegion_unqual d rd _ r3 hq hx3
    subst hr3
    have hdec : Decider.decide d rd = some ({ d with xtpk_found := false },
        dupdate rd (annotPairs { d with xtpk_found := false }
          ⟨Val.none, Val.none, Val.none, Val.none, Val.none, Val.none,
           Val.num s, Val.str "base",
           Val.str ("signal " ++ updown s ++ " from algo base without enough amplitude"),
           Val.none, Val.none⟩)) := by
      unfold Decider.decide decideCore
      rw [hbase]
      simp [hpk, hx3]
    rw [hdec, Option.some.injEq, Prod.mk.injEq] at hrun
    obtain ⟨hd2, hout⟩ := hrun
    have hf := dget_annot_fields rd { d with xtpk_found := false }
      ⟨Val.none, Val.none, Val.none, Val.none, Val.none, Val.none,
       Val.num s, Val.str "base",
       Val.str ("signal " ++ updown s ++ " from algo base without enough amplitude"),
       Val.none, Val.none⟩
    exact ⟨by rw [← hout]; exact hf.2.2.2.2.1,
      by rw [← hout]; exact hf.2.2.2.2.2.1,
      by rw [← hout]; exact hf.2.2.2.2.2.2.1,
      by rw [← hout]; exact hf.2.2.2.2.2.2.2⟩

/-- A record with an unconfirmed up base signal and no latched base maximum,
and an inactive peak region. -/
def c10record : Dict :=
  [("price", Val.num 1.2), ("base_signal", Val.num 1),
   ("base_mamplitude", Val.num 0.01), ("base_pamplitude", Val.num 0),
   ("base_max_price", Val.none), ("base_min_price", Val.none),
   ("peak_signal", Val.none), ("peak_pamplitude", Val.num 0),
   ("peak_tamplitude", Val.num 0), ("peak_follower_up", Val.none),
   ("peak_follower_dn", Val.none)]

/-- The annotation values decide computes on c10record. -/
def c10annots : Annots :=
  ⟨Val.none, Val.none, Val.none, Val.none, Val.none, Val.none,
   Val.num 1, Val.str "base",
   Val.str ("signal " ++ updown 1 ++ " from algo base without enough amplitude"),
   Val.none, Val.none⟩

theorem c10_decide_eval :
    Decider.decide initDecider c10record
      = some ({ initDecider with xtpk_found := false },
          dupdate c10record (annotPairs { initDecider with xtpk_found := false }
            c10annots)) := by
  have hq0 : ¬ (0.04 : ℚ) ≤ 0 := by norm_num
  have hfail : ¬ (initDecider.base_mamplitude_threshold ≤ (0.01 : ℚ) ∧
      initDecider.base_pamplitude_threshold ≤ (0 : ℚ)) := by
    norm_num [initDecider]
  have hbase := baseRegion_provisional_up_nolatch initDecider c10record 1 0.01 0
    (by simp [c10record, dget]) (by norm_num) (by simp [c10record, dget])
    (by simp [c10record, dget]) hfail (by simp [c10record, dget, Val.truthy])
  have hpk := peakRegion_skip initDecider c10record
    (⟨Val.num 1, Val.str "base",
      Val.str ("signal " ++ updown 1 ++ " from algo base without enough amplitude"),
      Val.none, Val.none⟩)
    (by simp [c10record, dget, Val.truthy])
  have hx3 : xtpkRegion initDecider c10record
      (⟨Val.num 1, Val.str "base",
        Val.str ("signal " ++ updown 1 ++ " from algo base without enough amplitude"),
        Val.none, Val.none⟩)
      = some ({ initDecider with xtpk_found := false },
          ⟨Val.num 1, Val.str "base",
            Val.str ("signal " ++ updown 1 ++ " from algo base without enough amplitude"),
            Val.none, Val.none⟩, Val.none, Val.none) := by
    simp [xtpkRegion, c10record, dget, Val.asNum, initDecider, hq0]
  unfold Decider.decide decideCore
  rw [hbase]
  simp [hpk, hx3, c10annots]

theorem c10_amended_witness :
    dget (((Decider.decide initDecider c10record).getD (initDecider, [])).2)
        "decision" = Val.num 1 ∧
      dget (((Decider.decide initDecider c10record).getD (initDecider, [])).2)
        "decision_algo" = Val.str "base" ∧
      dget (((Decider.decide initDecider c10record).getD (initDecider, [])).2)
        "decision_up" = Val.none ∧
      dget (((Decider.decide initDecider c10record).getD (initDecider, [])).2)
        "decision_dn" = Val.none := by
  have hq : qualifies initDecider c10record = false := by
    have hq0 : ¬ (0.04 : ℚ) ≤ 0 := by norm_num
    simp [qualifies, c10record, dget, Val.asNum, initDecider, hq0]
  have h := c10_amended initDecider c10record { initDecider with xtpk_found := false }
    (dupdate c10record (annotPairs { initDecider with xtpk_found := false } c10annots))
    1 0.01 0 rfl rfl c10_decide_eval
    (by simp [c10record, dget]) (by simp [c10record, dget]) (by simp [c10record, dget])
    (by norm_num) (by simp [c10record, dget, Val.truthy]) hq
    (Or.inl ⟨by norm_num, by simp [c10record, dget, Val.truthy]⟩)
  rw [c10_decide_eval]
  simp only [Option.getD_some]
  exact h

/-- A record in the scope of claim C10 (unconfirmed up base signal, no
latched base maximum) whose peak region is also active with confirming
amplitudes, so the peak region overrides the base annotations. -/
def c10xrecord : Dict :=
  [("price", Val.num 1.2), ("base_signal", Val.num 1),
   ("base_mamplitude", Val.num 0.01), ("base_pamplitude", Val.num 0),
   ("base_max_price", Val.none), ("base_min_price", Val.none),
   ("peak_signal", Val.num 1), ("peak_pamplitude", Val.num 0.05),
   ("peak_tamplitude", Val.num 0.03), ("peak_follower_up", Val.none),
   ("peak_follower_dn", Val.none)]

/-- The annotation values decide computes on c10xrecord. -/
def c10xannots : Annots :=
  ⟨Val.none, Val.none, Val.num 1.2, Val.none, Val.none, Val.none,
   Val.num 1, Val.str "peak",
   Val.str ("signal " ++ updown 1 ++ " from algo peak with enough amplitude"),
   Val.num 1.2, Val.none⟩

/-- Claim C10, counterexample: c10xrecord is in the claim's scope (a base
signal failing the amplitude test with base_max_price absent), yet decide
returns decision_algo "peak" and a non-None decision_up, because the peak
region overrides the base region's annotations. -/
theorem c10_counterexample :
    dget c10xrecord "base_signal" = Val.num 1 ∧
      dget c10xrecord "base_mamplitude" = Val.num 0.01 ∧
      ¬ ((0.02 : ℚ) ≤ 0.01) ∧
      dget c10xrecord "base_max_price" = Val.none ∧
      dget (((Decider.decide initDecider c10xrecord).getD (initDecider, [])).2)
          "decision_algo" = Val.str "peak" ∧
      dget (((Decider.decide initDecider c10xrecord).getD (initDecider, [])).2)
          "decision_up" = Val.num 1.2 := by
  have c1 : (0.04 : ℚ) ≤ 0.05 := by norm_num
  have c2 : (0.02 : ℚ) ≤ 0.03 := by norm_num
  have hfail : ¬ (initDecider.base_mamplitude_threshold ≤ (0.01 : ℚ) ∧
      initDecider.base_pamplitude_threshold ≤ (0 : ℚ)) := by
    norm_num [initDecider]
  have hbase := baseRegion_provisional_up_nolatch initDecider c10xrecord 1 0.01 0
    (by simp [c10xrecord, dget]) (by norm_num) (by simp [c10xrecord, dget])
    (by simp [c10xrecord, dget]) hfail (by simp [c10xrecord, dget, Val.truthy])
  have hpk : peakRegion initDecider c10xrecord
      (⟨Val.num 1, Val.str "base",
        Val.str ("signal " ++ updown 1 ++ " from algo base without enough amplitude"),
        Val.none, Val.none⟩)
      = some
        (⟨Val.num 1, Val.str "peak",
          Val.str ("signal " ++ updown 1 ++ " from algo peak with enough amplitude"),
          Val.num 1.2, Val.none⟩, Val.num 1.2, Val.none) := by
    simp [peakRegion, c10xrecord, dget, Val.asNum, Val.truthy, initDecider, c1, c2]
  have hx3 : xtpkRegion initDecider c10xrecord
      (⟨Val.num 1, Val.str "peak",
        Val.str ("signal " ++ updown 1 ++ " from algo peak with enough amplitude"),
        Val.num 1.2, Val.none⟩)
      = some (initDecider,
          ⟨Val.num 1, Val.str "peak",
            Val.str ("signal " ++ updown 1 ++ " from algo peak with enough amplitude"),
            Val.num 1.2, Val.none⟩, Val.none, Val.none) := by
    simp [xtpkRegion, c10xrecord, dget, Val.asNum, Val.truthy, initDecider, c1, c2]
  have hdec : Decider.decide initDecider c10xrecord
      = some (initDecider,
          dupdate c10xrecord (annotPairs initDecider c10xannots)) := by
    unfold Decider.decide decideCore
    rw [hbase]
    simp [hpk, hx3, c10xannots]
  refine ⟨by simp [c10xrecord, dget], by simp [c10xrecord, dget], by norm_num,
    by simp [c10xrecord, dget], ?_, ?_⟩
  · rw [hdec]
    simp only [Option.getD_some]
    exact (dget_annot_fields c10xrecord initDecider c10xannots).2.2.2.2.2.1
  · rw [hdec]
    simp only [Option.getD_some]
    exact (dget_annot_fields c10xrecord initDecider c10xannots).2.2.2.2.2.2.1
